import Mathlib

/-!
Shallow embedding of the DMs Guild royalty-report pipeline
(`fetch_dmsguild_royalties.py`) and proofs about its claims.

The embedding covers the row parser (`process_sales_table`), the table
normalizer (the DataFrame assembly at the end of `process_sales_table`),
the duplicate guard and sheet synchronizer (`update_google_sheet`), and
the local snapshot store (`save_to_local_file` / `load_existing_report`,
whose heavy lifting is pandas `to_csv` / `read_csv`).

Modelling conventions:
* Python floats are modelled as exact rationals (`Rat`); decimal string
  coercion is exact, so values such as `1234.50` are the rationals they
  denote.  Rationals are always built with `mkRat` on integers so that the
  kernel can evaluate them.
* Python strings are `String`; HTML cell extraction (`td.text`) is outside
  the model, so a table arrives as its rows of cell strings.
* Exceptions are modelled with `PyResult`; `.exn` is a raised exception,
  `.ok` a normal return.
* `int(...)` / `float(...)` are modelled on the decimal-literal fragment
  (sign, digits, point, exponent); special forms (`inf`, `nan`,
  underscores, unicode digits) are not modelled.
-/

/-- Result of running a Python function: a normal return or a raised
exception carrying its message. -/
inductive PyResult (α : Type) where
  | ok : α → PyResult α
  | exn : String → PyResult α
deriving DecidableEq, Repr

/-- ASCII whitespace recognized by Python `str.strip()`. -/
def isSpaceChar (c : Char) : Bool :=
  c = ' ' || c = '\t' || c = '\n' || c = '\r' || c = '\x0b' || c = '\x0c'

/-- Python `str.strip()` on a character list. -/
def pyStripChars (cs : List Char) : List Char :=
  ((cs.dropWhile isSpaceChar).reverse.dropWhile isSpaceChar).reverse

/-- Python `str.strip()`. -/
def pyStrip (s : String) : String := ⟨pyStripChars s.data⟩

/-- Python `str.replace(c, '')`: delete every occurrence of one character. -/
def removeChar (c : Char) (s : String) : String := ⟨s.data.filter (fun x => x ≠ c)⟩

/-- Python `s or '0'`: an empty string is falsy and is replaced by `"0"`. -/
def orDefault (s : String) : String := if s = "" then "0" else s

/-- Numeric value of a most-significant-first list of decimal digit
characters. -/
def digitsVal (cs : List Char) : Nat :=
  cs.foldl (fun a c => 10 * a + (c.toNat - 48)) 0

/-- Parse a nonempty all-digit character list as a natural number. -/
def parseNatChars (cs : List Char) : Option Nat :=
  if cs ≠ [] ∧ cs.all Char.isDigit then some (digitsVal cs) else none

/-- Least-significant-first decimal digits of `n`, with explicit fuel so the
recursion is structural. -/
def natDigitsAux : Nat → Nat → List Nat
  | 0, _ => []
  | fuel + 1, n => if n = 0 then [] else n % 10 :: natDigitsAux fuel (n / 10)

/-- Least-significant-first decimal digits of `n` (empty for `0`). -/
def natDigits (n : Nat) : List Nat := natDigitsAux n n

/-- Decimal rendering of a natural number as characters (Python `str`). -/
def renderNatChars (n : Nat) : List Char :=
  if n = 0 then ['0'] else (natDigits n).reverse.map Nat.digitChar

/-- Python `str` of a nonnegative integer. -/
def renderNat (n : Nat) : String := ⟨renderNatChars n⟩

/-- Python `str` of an integer. -/
def renderInt (n : Int) : String :=
  if n < 0 then ⟨'-' :: renderNatChars n.natAbs⟩ else ⟨renderNatChars n.natAbs⟩

/-- Read an optional leading sign, returning the sign as `1` or `-1` and the
remaining characters. -/
def readSign (cs : List Char) : Int × List Char :=
  match cs with
  | c :: rest => if c = '-' then (-1, rest) else if c = '+' then (1, rest) else (1, cs)
  | [] => (1, [])

/-- Python `int(s)` on the decimal fragment: strip whitespace, optional
sign, then a nonempty digit string. -/
def pyToIntChars (cs : List Char) : Option Int :=
  let s := pyStripChars cs
  let p := readSign s
  (parseNatChars p.2).map (fun (n : Nat) => p.1 * (n : Int))

/-- Python `int(s)`. -/
def pyToInt (s : String) : Option Int := pyToIntChars s.data

/-- Split a character list at the first character satisfying `p`; `none` if
no such character occurs. -/
def splitFirst (p : Char → Bool) : List Char → Option (List Char × List Char)
  | [] => none
  | c :: rest =>
    if p c then some ([], rest)
    else (splitFirst p rest).map (fun q => (c :: q.1, q.2))

/-- Value and fraction-digit count of a float mantissa
(`digits`, `digits.digits`, `digits.`, or `.digits`). -/
def mantissaVal (cs : List Char) : Option (Nat × Nat) :=
  match splitFirst (fun c => c = '.') cs with
  | none => if cs ≠ [] ∧ cs.all Char.isDigit then some (digitsVal cs, 0) else none
  | some q =>
    if (q.1 ++ q.2) ≠ [] ∧ (q.1 ++ q.2).all Char.isDigit then
      some (digitsVal (q.1 ++ q.2), q.2.length)
    else none

/-- Value of a float exponent part (optional sign, then digits). -/
def expVal (cs : List Char) : Option Int :=
  let p := readSign cs
  (parseNatChars p.2).map (fun (n : Nat) => p.1 * (n : Int))

/-- Python `float(s)` on the finite decimal fragment: strip whitespace,
optional sign, mantissa, optional `e`/`E` exponent.  The value is exact. -/
def pyToFloatChars (cs0 : List Char) : Option Rat :=
  let cs1 := pyStripChars cs0
  let p := readSign cs1
  match splitFirst (fun c => c = 'e' || c = 'E') p.2 with
  | none => (mantissaVal p.2).map (fun md => mkRat (p.1 * md.1) (10 ^ md.2))
  | some q =>
    match mantissaVal q.1, expVal q.2 with
    | some md, some ex =>
      if 0 ≤ ex then some (mkRat (p.1 * md.1 * (10 ^ ex.toNat : Nat)) (10 ^ md.2))
      else some (mkRat (p.1 * md.1) (10 ^ (md.2 + (-ex).toNat)))
    | _, _ => none

/-- Python `float(s)`. -/
def pyToFloat (s : String) : Option Rat := pyToFloatChars s.data

/-- Coercion of the `Units_Sold` cell:
`int(cols[3].text.strip() or '0')`. -/
def coerceUnits (s : String) : Option Int := pyToInt (orDefault (pyStrip s))

/-- Coercion of a currency cell (`Net`, `Royalties`):
`float(cell.strip().replace('$', '').replace(',', '') or '0')`. -/
def coerceCurrency (s : String) : Option Rat :=
  pyToFloat (orDefault (removeChar ',' (removeChar '$' (pyStrip s))))

/-- Coercion of the `Royalty_Rate` cell:
`float(cell.strip().replace('%', '') or '0')`. -/
def coercePercent (s : String) : Option Rat :=
  pyToFloat (orDefault (removeChar '%' (pyStrip s)))

/-- One row of the royalty table (`row_data` in `process_sales_table`). -/
structure SalesRecord where
  publisher : String
  title : String
  sku : String
  units_sold : Int
  net : Rat
  royalty_rate : Rat
  royalties : Rat
deriving DecidableEq, Repr

/-- A normalized report: the constant `Month` and `Year` columns plus the
parsed records, in order. -/
structure ReportTable where
  month : String
  year : Int
  records : List SalesRecord
deriving DecidableEq, Repr

/-- The fixed column order of a report (`columns_order` in the script). -/
def columns_order : List String :=
  ["Month", "Year", "Publisher", "Title", "SKU", "Units_Sold",
   "Net", "Royalty_Rate", "Royalties"]

/-- Parse one data row of the HTML table.  A row is accepted only when it
has exactly 7 cells (`len(cols) != 7: continue`) and every numeric coercion
succeeds (the `try` block); otherwise the row is skipped (`none`). -/
def parseRow (cols : List String) : Option SalesRecord :=
  if h : cols.length = 7 then
    (coerceUnits (cols.get ⟨3, by omega⟩)).bind fun u =>
      (coerceCurrency (cols.get ⟨4, by omega⟩)).bind fun n =>
        (coercePercent (cols.get ⟨5, by omega⟩)).bind fun rr =>
          (coerceCurrency (cols.get ⟨6, by omega⟩)).map fun roy =>
            { publisher := pyStrip (cols.get ⟨0, by omega⟩)
              title := pyStrip (cols.get ⟨1, by omega⟩)
              sku := pyStrip (cols.get ⟨2, by omega⟩)
              units_sold := u, net := n, royalty_rate := rr, royalties := roy }
  else none

/-- The row-scanning loop of `process_sales_table`: every data row either
contributes a record or is skipped. -/
def extract_rows (dataRows : List (List String)) : List SalesRecord :=
  dataRows.filterMap parseRow

/-- Python `calendar.month_name`: a 13-entry sequence whose index 0 is the
empty string. -/
def month_name_list : List String :=
  ["", "January", "February", "March", "April", "May", "June", "July",
   "August", "September", "October", "November", "December"]

/-- Python list indexing `l[i]`: nonnegative indices in range, negative
indices counted from the end, otherwise `IndexError` (`none`). -/
def pyListGet (l : List String) (i : Int) : Option String :=
  if 0 ≤ i then (if i.toNat < l.length then l.get? i.toNat else none)
  else (if (-i).toNat ≤ l.length then l.get? (l.length - (-i).toNat) else none)

/-- `calendar.month_name[month]`. -/
def month_name (i : Int) : Option String := pyListGet month_name_list i

/-- The table-normalizer tail of `process_sales_table`: build the table,
set the constant `Month` (full name) and `Year` columns, and put the
columns in the fixed order.  An out-of-range month index raises. -/
def normalize_table (records : List SalesRecord) (month year : Int) :
    PyResult ReportTable :=
  match month_name month with
  | some mn => .ok { month := mn, year := year, records := records }
  | none => .exn "IndexError: list index out of range"

/-- `process_sales_table` on the extracted table rows (header first): fewer
than two rows or no valid data rows give `None`; otherwise the normalized
table, with an out-of-range month raising. -/
def process_sales_table (rows : List (List String)) (month year : Int) :
    PyResult (Option ReportTable) :=
  if rows.length < 2 then .ok none
  else if (extract_rows rows.tail).isEmpty then .ok none
  else
    match normalize_table (extract_rows rows.tail) month year with
    | .ok t => .ok (some t)
    | .exn m => .exn m

/-- A value sent to or read from the spreadsheet API: Python strings,
ints, floats, bools, or a missing value (`NaN`). -/
inductive CellValue where
  | str : String → CellValue
  | int : Int → CellValue
  | float : Rat → CellValue
  | bool : Bool → CellValue
  | na : CellValue
deriving DecidableEq, Repr

/-- `clean_value_for_sheets`: `NaN` becomes the empty string, numbers
(ints, floats, and bools, which are ints in Python) pass through, anything
else is stringified and stripped. -/
def clean_value_for_sheets : CellValue → CellValue
  | .na => .str ""
  | .int n => .int n
  | .float q => .float q
  | .bool b => .bool b
  | .str s => .str (pyStrip s)

/-- The rows of a table in the fixed column order
(`df.values.tolist()` after the column reordering). -/
def ReportTable.toCells (t : ReportTable) : List (List CellValue) :=
  t.records.map (fun r =>
    [.str t.month, .int t.year, .str r.publisher, .str r.title, .str r.sku,
     .int r.units_sold, .float r.net, .float r.royalty_rate, .float r.royalties])

/-- The cleaned payload rows sent to the sheet
(`[[clean_value_for_sheets(value) for value in row] for row in df.values.tolist()]`). -/
def sheet_payload (t : ReportTable) : List (List CellValue) :=
  t.toCells.map (fun row => row.map clean_value_for_sheets)

/-- Python `list.index(x)`: position of the first occurrence, `ValueError`
(`none`) if absent. -/
def listIndex (l : List String) (x : String) : Option Nat :=
  match l with
  | [] => none
  | a :: rest =>
    if a = x then some 0 else (listIndex rest x).map (· + 1)

/-- One iteration of the duplicate scan: a row matches when it is long
enough to hold both column positions and its month cell equals the new
month exactly while its year cell equals the new year as text
(`len(row) > max(month_idx, year_idx) and row[month_idx] == new_month and
str(row[year_idx]) == str(new_year)`).  Cells are accessed only under the
length guard, so no out-of-bounds index occurs. -/
def rowIsDuplicate (mi yi : Nat) (m ys : String) (row : List String) : Bool :=
  if h : max mi yi < row.length then
    (row.get ⟨mi, by omega⟩ == m) && (row.get ⟨yi, by omega⟩ == ys)
  else false

/-- The duplicate-scan loop over the data rows: stop at the first match
(`break`), report no duplicate after a full scan. -/
def find_duplicate (rows : List (List String)) (mi yi : Nat) (m ys : String) : Bool :=
  match rows with
  | [] => false
  | row :: rest =>
    if rowIsDuplicate mi yi m ys row then true else find_duplicate rest mi yi m ys

/-- Outcome of `update_google_sheet`: `skipped` is the `return False`
duplicate path; `written` carries the value rows sent to the API and the
1-based sheet row of the write (`start_row`). -/
inductive SyncOutcome where
  | skipped : SyncOutcome
  | written : List (List CellValue) → Nat → SyncOutcome
deriving DecidableEq, Repr

/-- The synchronization core of `update_google_sheet`, acting on the
current remote snapshot (the rows read from `Sheet1!A:I`, as strings).
`df['Month'].iloc[0]` / `df['Year'].iloc[0]` read the constant period
columns; on an empty table `iloc[0]` raises `IndexError`, and on a
nonempty one they are the table's `month` and `year` fields.  An empty
snapshot gets headers plus data at row 1; otherwise the header row is
searched for the `Month` and `Year` columns (raising on a schema
mismatch), the data rows are scanned for the period, and a duplicate makes
the call return `False` (`skipped`) with no write; otherwise the cleaned
rows are appended at `len(existing_data) + 1`. -/
def update_google_sheet (t : ReportTable) (snapshot : List (List String)) :
    PyResult SyncOutcome :=
  match t.records with
  | [] => .exn "IndexError: single positional indexer is out-of-bounds"
  | _ :: _ =>
    let new_month := t.month
    let new_year := t.year
    match snapshot with
    | [] => .ok (.written (columns_order.map CellValue.str :: sheet_payload t) 1)
    | headers :: dataRows =>
      match listIndex headers "Month", listIndex headers "Year" with
      | some mi, some yi =>
        if find_duplicate dataRows mi yi new_month (renderInt new_year) then
          .ok .skipped
        else
          .ok (.written (sheet_payload t) ((headers :: dataRows).length + 1))
      | _, _ => .exn "Could not find Month or Year columns in existing sheet"

/-- Multiplicity of `p` in `n`, computed with explicit fuel so the
recursion is structural. -/
def multPowAux : Nat → Nat → Nat → Nat
  | 0, _, _ => 0
  | fuel + 1, p, n =>
    if 2 ≤ p ∧ n ≠ 0 ∧ n % p = 0 then multPowAux fuel p (n / p) + 1 else 0

/-- Multiplicity of `p` in `n` (`n` itself is always enough fuel). -/
def multPow (p n : Nat) : Nat := multPowAux n p n

/-- The number of decimal digits Python `str` prints after the point for
an exactly-decimal float: the least `k ≥ 1` with `den ∣ 10 ^ k`. -/
def decExp (q : Rat) : Nat := max (max (multPow 2 q.den) (multPow 5 q.den)) 1

/-- Decimal rendering of a float whose denominator is a product of twos
and fives, exactly as Python `str(float)` prints such a value (at least
one digit after the point, no exponent).  Values outside that range (which
never correspond to a binary float) fall back to integer division. -/
def floatDigits (q : Rat) : List Char :=
  List.replicate (decExp q + 1 - (renderNatChars (q.num.natAbs * (10 ^ decExp q / q.den))).length) '0'
    ++ renderNatChars (q.num.natAbs * (10 ^ decExp q / q.den))

/-- The unsigned digit body of a decimal float rendering: the scaled
digits with the point inserted `decExp q` places from the right. -/
def floatBody (q : Rat) : List Char :=
  (floatDigits q).take ((floatDigits q).length - decExp q) ++
    '.' :: (floatDigits q).drop ((floatDigits q).length - decExp q)

def renderFloat (q : Rat) : String :=
  if q.den ∣ 10 ^ decExp q then
    (if q.num < 0 then ⟨'-' :: floatBody q⟩ else ⟨floatBody q⟩)
  else
    renderInt (q.num / (q.den : Int)) ++ ".0"

/-- The string shown for a cell when the sheet is read back with the
default `FORMATTED_VALUE` rendering: strings as themselves, numbers in
decimal (a float with no fractional part displays without a point). -/
def displayCell : CellValue → String
  | .str s => s
  | .int n => renderInt n
  | .float q => if q.den = 1 then renderInt q.num else renderFloat q
  | .bool b => if b then "TRUE" else "FALSE"
  | .na => ""

/-- Effect of a synchronizer outcome on the remote snapshot: a skip leaves
it unchanged; a write at row `r` overwrites the grid starting there (for
this script `r` is always just past the last existing row, so the write is
an append). -/
def applyOutcome (snapshot : List (List String)) : SyncOutcome → List (List String)
  | .skipped => snapshot
  | .written v r =>
    snapshot.take (r - 1) ++ v.map (fun row => row.map displayCell)
      ++ snapshot.drop (r - 1 + v.length)

/-- Characters that force CSV quoting under minimal quoting: the
delimiter, the quote character, and line breaks. -/
def csvSpecial (c : Char) : Bool := c = ',' || c = '"' || c = '\n' || c = '\r'

/-- Does a field need quoting when written? -/
def needsQuote (cs : List Char) : Bool := cs.any csvSpecial

/-- Double every quote character inside a quoted field. -/
def escField : List Char → List Char
  | [] => []
  | c :: rest => if c = '"' then '"' :: '"' :: escField rest else c :: escField rest

/-- Write one CSV field with minimal quoting. -/
def writeField (cs : List Char) : List Char :=
  if needsQuote cs then '"' :: (escField cs ++ ['"']) else cs

/-- Write one CSV record: fields joined by commas. -/
def writeRowChars : List (List Char) → List Char
  | [] => []
  | [f] => writeField f
  | f :: rest => writeField f ++ ',' :: writeRowChars rest

/-- Write a CSV file: one line per record, each terminated by a newline
(as pandas `to_csv` does). -/
def writeCsvChars : List (List (List Char)) → List Char
  | [] => []
  | r :: rest => writeRowChars r ++ '\n' :: writeCsvChars rest

/-- State of the CSV reader: inside an unquoted field, inside a quoted
field, or just after a closing quote. -/
inductive CsvMode where
  | unq : CsvMode
  | inq : CsvMode
  | postq : CsvMode
deriving DecidableEq, Repr

/-- The CSV reader automaton.  `fld` is the current field (reversed),
`row` the fields of the current record (reversed), `acc` the finished
records (reversed).  A quote opens a quoted field only at a field start; a
doubled quote inside quotes is a literal quote; end of input closes the
pending record unless nothing of it has been seen. -/
def parseCsvAux : List Char → CsvMode → List Char → List (List Char) →
    List (List (List Char)) → List (List (List Char))
  | [], _, fld, row, acc =>
    if fld = [] ∧ row = [] then acc.reverse
    else ((fld.reverse :: row).reverse :: acc).reverse
  | c :: rest, .inq, fld, row, acc =>
    if c = '"' then parseCsvAux rest .postq fld row acc
    else parseCsvAux rest .inq (c :: fld) row acc
  | c :: rest, .postq, fld, row, acc =>
    if c = '"' then parseCsvAux rest .inq ('"' :: fld) row acc
    else if c = ',' then parseCsvAux rest .unq [] (fld.reverse :: row) acc
    else if c = '\n' then parseCsvAux rest .unq [] [] ((fld.reverse :: row).reverse :: acc)
    else parseCsvAux rest .unq (c :: fld) row acc
  | c :: rest, .unq, fld, row, acc =>
    if c = '"' ∧ fld = [] then parseCsvAux rest .inq fld row acc
    else if c = ',' then parseCsvAux rest .unq [] (fld.reverse :: row) acc
    else if c = '\n' then parseCsvAux rest .unq [] [] ((fld.reverse :: row).reverse :: acc)
    else parseCsvAux rest .unq (c :: fld) row acc

/-- Parse a CSV file into its records of fields. -/
def parseCsvChars (cs : List Char) : List (List (List Char)) :=
  parseCsvAux cs .unq [] [] []

/-- Write a CSV file from string rows. -/
def writeCsv (rows : List (List String)) : String :=
  ⟨writeCsvChars (rows.map (fun r => r.map String.data))⟩

/-- Parse a CSV file into string rows. -/
def parseCsv (s : String) : List (List String) :=
  (parseCsvChars s.data).map (fun r => r.map (fun f => (⟨f⟩ : String)))

/-- The default strings pandas `read_csv` treats as missing (`NaN`). -/
def naTokens : List String :=
  ["", "#N/A", "#N/A N/A", "#NA", "-1.#IND", "-1.#QNAN", "-NaN", "-nan",
   "1.#IND", "1.#QNAN", "<NA>", "N/A", "NA", "NULL", "NaN", "None",
   "n/a", "nan", "null"]

/-- Is a cell one of the missing-value tokens? -/
def isNAToken (s : String) : Bool := naTokens.contains s

/-- Does a cell parse as an integer? -/
def isIntStr (s : String) : Bool := (pyToInt s).isSome

/-- Does a cell parse as a float? -/
def isFloatStr (s : String) : Bool := (pyToFloat s).isSome

/-- The strings pandas `read_csv` recognizes as booleans. -/
def isBoolStr (s : String) : Bool :=
  s = "True" || s = "TRUE" || s = "true" || s = "False" || s = "FALSE" || s = "false"

/-- Truth value of a recognized boolean cell. -/
def parseBoolStr (s : String) : Bool := s = "True" || s = "TRUE" || s = "true"

/-- The dtype pandas infers for one column. -/
inductive ColKind where
  | kint : ColKind
  | kfloat : ColKind
  | kbool : ColKind
  | kobj : ColKind
deriving DecidableEq, Repr

/-- Column dtype inference of `read_csv`: all present cells integers and
no missing cell gives `int64`; integers with missing cells, or floats,
give `float64`; booleans give `bool`; anything else stays `object`. -/
def columnKind (cells : List String) : ColKind :=
  let present := cells.filter (fun s => ¬ isNAToken s)
  if present.all isIntStr then
    (if cells.all (fun s => ¬ isNAToken s) then .kint else .kfloat)
  else if present.all isFloatStr then .kfloat
  else if present.all isBoolStr then .kbool
  else .kobj

/-- Conversion of one cell under the column's inferred dtype. -/
def inferCell : ColKind → String → CellValue
  | .kint, s => .int ((pyToInt s).getD 0)
  | .kfloat, s => if isNAToken s then .na else .float ((pyToFloat s).getD 0)
  | .kbool, s => if isNAToken s then .na else .bool (parseBoolStr s)
  | .kobj, s => if isNAToken s then .na else .str s

/-- Pad a short record with empty cells up to the header width, as
`read_csv` fills missing trailing fields with `NaN`. -/
def padRow (n : Nat) (r : List String) : List String :=
  r ++ List.replicate (n - r.length) ""

/-- The CSV text a cell is written as by `to_csv`. -/
def renderCellCsv : CellValue → String
  | .str s => s
  | .int n => renderInt n
  | .float q => renderFloat q
  | .bool b => if b then "True" else "False"
  | .na => ""

/-- `save_to_local_file` / `df.to_csv(filepath, index=False)`: a header
line with the column names followed by one line per record. -/
def save_to_local_file (t : ReportTable) : String :=
  writeCsv (columns_order :: t.toCells.map (fun row => row.map renderCellCsv))

/-- `load_existing_report` / `pd.read_csv(filepath)` on the file's text:
the first record is the header; records wider than the header are a parse
error (`None`, treated as absent); short records are padded; every column
is converted according to its inferred dtype. -/
def load_existing_report (contents : String) :
    Option (List String × List (List CellValue)) :=
  match parseCsv contents with
  | [] => none
  | hdr :: dataRows =>
    if dataRows.any (fun r => hdr.length < r.length) then none
    else
      let rows := dataRows.map (padRow hdr.length)
      let kinds := (List.range hdr.length).map
        (fun j => columnKind (rows.map (fun row => row.getD j "")))
      some (hdr, rows.map (fun row =>
        (List.range hdr.length).map
          (fun j => inferCell (kinds.getD j .kobj) (row.getD j ""))))

/-- A text cell survives the CSV round trip unchanged exactly when it is
not a missing-value token and is not read back as a number or boolean. -/
def strInfersSelf (s : String) : Bool :=
  !(isNAToken s) && !(isIntStr s) && !(isFloatStr s) && !(isBoolStr s)

/-- A rational is exactly a decimal float when its denominator divides the
power of ten that `renderFloat` uses; every binary floating-point value
satisfies this. -/
def DecimalDen (q : Rat) : Prop := q.den ∣ 10 ^ decExp q

/-! ### Arithmetic and rendering lemmas -/

/-- Value of a least-significant-first digit list. -/
def valLSB (ds : List Nat) : Nat := ds.foldr (fun d a => d + 10 * a) 0

theorem natDigitsAux_val (fuel : Nat) :
    ∀ n, n ≤ fuel → valLSB (natDigitsAux fuel n) = n := by
  induction fuel with
  | zero =>
    intro n h
    have : n = 0 := Nat.le_zero.mp h
    subst this
    simp [natDigitsAux, valLSB]
  | succ f ih =>
    intro n h
    by_cases h0 : n = 0
    · subst h0; simp [natDigitsAux, valLSB]
    · have hlt : n / 10 ≤ f := by
        have : n / 10 < n := Nat.div_lt_self (Nat.pos_of_ne_zero h0) (by omega)
        omega
      simp only [natDigitsAux, if_neg h0, valLSB, List.foldr_cons]
      have := ih (n / 10) hlt
      simp only [valLSB] at this
      rw [this]
      omega

theorem natDigits_val (n : Nat) : valLSB (natDigits n) = n :=
  natDigitsAux_val n n le_rfl

theorem natDigitsAux_lt (fuel : Nat) :
    ∀ n d, d ∈ natDigitsAux fuel n → d < 10 := by
  induction fuel with
  | zero => intro n d h; simp [natDigitsAux] at h
  | succ f ih =>
    intro n d h
    by_cases h0 : n = 0
    · subst h0; simp [natDigitsAux] at h
    · simp only [natDigitsAux, if_neg h0, List.mem_cons] at h
      rcases h with h | h
      · subst h; exact Nat.mod_lt _ (by omega)
      · exact ih _ _ h

theorem digitChar_inv (d : Nat) (h : d < 10) : (Nat.digitChar d).toNat - 48 = d := by
  interval_cases d <;> rfl

theorem digitChar_isDigit (d : Nat) (h : d < 10) : (Nat.digitChar d).isDigit = true := by
  interval_cases d <;> rfl

theorem valLSB_append (xs : List Nat) (d : Nat) :
    valLSB (xs ++ [d]) = valLSB xs + d * 10 ^ xs.length := by
  induction xs with
  | nil => simp [valLSB]
  | cons x xs ih =>
    simp only [valLSB, List.foldr_cons, List.cons_append] at *
    rw [ih, List.length_cons, pow_succ]
    ring

theorem foldl_digits (ds : List Nat) :
    ∀ a, ds.foldl (fun x d => 10 * x + d) a = a * 10 ^ ds.length + valLSB ds.reverse := by
  induction ds with
  | nil => intro a; simp [valLSB]
  | cons d ds ih =>
    intro a
    simp only [List.foldl_cons, List.reverse_cons, List.length_cons]
    rw [ih, valLSB_append, List.length_reverse]
    ring

theorem foldl_digitChars (ds : List Nat) (hds : ∀ d ∈ ds, d < 10) :
    ∀ a, (ds.map Nat.digitChar).foldl (fun x c => 10 * x + (c.toNat - 48)) a =
      ds.foldl (fun x d => 10 * x + d) a := by
  induction ds with
  | nil => intro a; simp
  | cons d ds ih =>
    intro a
    simp only [List.map_cons, List.foldl_cons]
    rw [digitChar_inv d (hds d (List.mem_cons_self _ _))]
    exact ih (fun x hx => hds x (List.mem_cons_of_mem _ hx)) _

theorem digitsVal_renderNat (n : Nat) : digitsVal (renderNatChars n) = n := by
  by_cases h0 : n = 0
  · subst h0; rfl
  · simp only [renderNatChars, if_neg h0, digitsVal, natDigits]
    rw [foldl_digitChars ((natDigitsAux n n).reverse)
      (fun d hd => natDigitsAux_lt n n d (List.mem_reverse.mp hd))]
    rw [foldl_digits]
    simpa [valLSB] using natDigitsAux_val n n le_rfl

theorem renderNatChars_digit (n : Nat) : ∀ c ∈ renderNatChars n, c.isDigit = true := by
  intro c hc
  by_cases h0 : n = 0
  · subst h0; simp [renderNatChars] at hc; subst hc; rfl
  · simp only [renderNatChars, if_neg h0, List.mem_map] at hc
    obtain ⟨d, hd, rfl⟩ := hc
    exact digitChar_isDigit d (natDigitsAux_lt n n d (List.mem_reverse.mp hd))

theorem renderNatChars_ne_nil (n : Nat) : renderNatChars n ≠ [] := by
  by_cases h0 : n = 0
  · subst h0; simp [renderNatChars]
  · simp only [renderNatChars, if_neg h0]
    have h1 : 1 ≤ n := Nat.pos_of_ne_zero h0
    match n, h1 with
    | n + 1, _ =>
      simp [natDigits, natDigitsAux]

theorem parseNat_renderNat (n : Nat) : parseNatChars (renderNatChars n) = some n := by
  rw [parseNatChars, if_pos]
  · exact congrArg some (digitsVal_renderNat n)
  · exact ⟨renderNatChars_ne_nil n, List.all_eq_true.mpr (renderNatChars_digit n)⟩

theorem dropWhile_all_false (p : Char → Bool) :
    ∀ cs : List Char, (∀ c ∈ cs, p c = false) → cs.dropWhile p = cs := by
  intro cs h
  cases cs with
  | nil => rfl
  | cons c rest =>
    rw [List.dropWhile_cons, if_neg]
    simp [h c (List.mem_cons_self _ _)]

theorem pyStripChars_id (cs : List Char) (h : ∀ c ∈ cs, isSpaceChar c = false) :
    pyStripChars cs = cs := by
  rw [pyStripChars, dropWhile_all_false _ _ h, dropWhile_all_false, List.reverse_reverse]
  intro c hc
  exact h c (List.mem_reverse.mp hc)

theorem not_space_of_digit (c : Char) (h : c.isDigit = true) : isSpaceChar c = false := by
  by_contra hc
  rw [Bool.not_eq_false, isSpaceChar] at hc
  simp only [Bool.or_eq_true, decide_eq_true_eq] at hc
  rcases hc with ((((rfl | rfl) | rfl) | rfl) | rfl) | rfl <;> simp at h

theorem digit_ne_minus (c : Char) (h : c.isDigit = true) : c ≠ '-' := by
  intro hc; subst hc; simp at h

theorem digit_ne_plus (c : Char) (h : c.isDigit = true) : c ≠ '+' := by
  intro hc; subst hc; simp at h

theorem readSign_digits (cs : List Char) (h : ∀ c ∈ cs, c.isDigit = true)
    (hne : cs ≠ []) : readSign cs = (1, cs) := by
  cases cs with
  | nil => exact absurd rfl hne
  | cons c rest =>
    have hd := h c (List.mem_cons_self _ _)
    rw [readSign]
    simp only [if_neg (digit_ne_minus c hd), if_neg (digit_ne_plus c hd)]

theorem pyToIntChars_eq (cs : List Char) :
    pyToIntChars cs =
      (parseNatChars (readSign (pyStripChars cs)).2).map
        (fun (n : Nat) => (readSign (pyStripChars cs)).1 * (n : Int)) := rfl

theorem pyToInt_renderInt (n : Int) : pyToInt (renderInt n) = some n := by
  by_cases hn : n < 0
  · rw [renderInt, if_pos hn, pyToInt]
    have hstrip : pyStripChars ('-' :: renderNatChars n.natAbs) = '-' :: renderNatChars n.natAbs := by
      apply pyStripChars_id
      intro c hc
      rcases List.mem_cons.mp hc with rfl | hc
      · rfl
      · exact not_space_of_digit c (renderNatChars_digit _ c hc)
    have hsign : readSign ('-' :: renderNatChars n.natAbs) = (-1, renderNatChars n.natAbs) := by
      simp [readSign]
    rw [show ((⟨'-' :: renderNatChars n.natAbs⟩ : String)).data = '-' :: renderNatChars n.natAbs from rfl]
    rw [pyToIntChars_eq, hstrip, hsign, parseNat_renderNat]
    simp only [Option.map_some']
    congr 1
    omega
  · rw [renderInt, if_neg hn, pyToInt]
    rw [show ((⟨renderNatChars n.natAbs⟩ : String)).data = renderNatChars n.natAbs from rfl]
    rw [pyToIntChars_eq,
      pyStripChars_id _ (fun c hc => not_space_of_digit c (renderNatChars_digit _ c hc)),
      readSign_digits _ (renderNatChars_digit _) (renderNatChars_ne_nil _),
      parseNat_renderNat]
    simp only [Option.map_some', one_mul]
    congr 1
    omega

theorem isIntStr_renderInt (n : Int) : isIntStr (renderInt n) = true := by
  rw [isIntStr, pyToInt_renderInt]; rfl

/-- Characters that can occur in a decimal number rendering. -/
def numLike (c : Char) : Bool := c.isDigit || c = '-' || c = '.'

theorem renderInt_numLike (n : Int) : ∀ c ∈ (renderInt n).data, numLike c = true := by
  intro c hc
  rw [renderInt] at hc
  by_cases hn : n < 0
  · rw [if_pos hn] at hc
    simp only [String.data] at hc
    rcases List.mem_cons.mp hc with rfl | hc
    · rfl
    · simp [numLike, renderNatChars_digit _ c hc]
  · rw [if_neg hn] at hc
    simp only [String.data] at hc
    simp [numLike, renderNatChars_digit _ c hc]

theorem naToken_shape :
    ∀ s ∈ naTokens, s.data = [] ∨ s.data.any (fun c => !(numLike c)) = true := by
  intro s hs
  fin_cases hs <;> decide

theorem notNA_of_numLike (cs : List Char) (h0 : cs ≠ [])
    (hall : ∀ c ∈ cs, numLike c = true) : isNAToken ⟨cs⟩ = false := by
  by_contra hc
  rw [Bool.not_eq_false] at hc
  have hmem : (⟨cs⟩ : String) ∈ naTokens := by
    rw [isNAToken] at hc
    exact List.mem_of_elem_eq_true hc
  rcases naToken_shape _ hmem with hempty | hbad
  · exact h0 hempty
  · rw [List.any_eq_true] at hbad
    obtain ⟨c, hcmem, hcbad⟩ := hbad
    have := hall c hcmem
    simp [this] at hcbad

theorem notNA_renderInt (n : Int) : isNAToken (renderInt n) = false := by
  have h1 : renderInt n = (⟨(renderInt n).data⟩ : String) := rfl
  rw [h1]
  apply notNA_of_numLike _ _ (renderInt_numLike n)
  rw [renderInt]
  by_cases hn : n < 0
  · simp [if_pos hn]
  · simpa [if_neg hn] using renderNatChars_ne_nil n.natAbs

theorem digitsVal_zeros (m : Nat) (ds : List Char) :
    digitsVal (List.replicate m '0' ++ ds) = digitsVal ds := by
  induction m with
  | zero => rfl
  | succ m ih =>
    simp only [List.replicate_succ, List.cons_append, digitsVal, List.foldl_cons] at *
    simpa using ih

theorem splitFirst_none (p : Char → Bool) :
    ∀ cs, (∀ c ∈ cs, p c = false) → splitFirst p cs = none := by
  intro cs h
  induction cs with
  | nil => rfl
  | cons c rest ih =>
    rw [splitFirst, if_neg (by simp [h c (List.mem_cons_self _ _)])]
    rw [ih (fun x hx => h x (List.mem_cons_of_mem _ hx))]
    rfl

theorem splitFirst_app (p : Char → Bool) (c : Char) (ys : List Char) (hc : p c = true) :
    ∀ xs, (∀ x ∈ xs, p x = false) → splitFirst p (xs ++ c :: ys) = some (xs, ys) := by
  intro xs h
  induction xs with
  | nil => simp [splitFirst, hc]
  | cons x rest ih =>
    rw [List.cons_append, splitFirst, if_neg (by simp [h x (List.mem_cons_self _ _)])]
    rw [ih (fun y hy => h y (List.mem_cons_of_mem _ hy))]
    rfl

theorem digit_ne_dot (c : Char) (h : c.isDigit = true) : (c = '.') = False := by
  simp only [eq_iff_iff, iff_false]
  intro hc; subst hc; simp at h

theorem floatDigits_digit (q : Rat) : ∀ c ∈ floatDigits q, c.isDigit = true := by
  intro c hc
  rw [floatDigits] at hc
  rcases List.mem_append.mp hc with hc | hc
  · rw [(List.eq_of_mem_replicate hc : c = '0')]; rfl
  · exact renderNatChars_digit _ c hc

theorem floatDigits_len (q : Rat) : decExp q < (floatDigits q).length := by
  rw [floatDigits, List.length_append, List.length_replicate]
  have := List.length_pos.mpr (renderNatChars_ne_nil (q.num.natAbs * (10 ^ decExp q / q.den)))
  omega

theorem digitsVal_floatDigits (q : Rat) :
    digitsVal (floatDigits q) = q.num.natAbs * (10 ^ decExp q / q.den) := by
  rw [floatDigits, digitsVal_zeros, digitsVal_renderNat]

theorem mantissa_floatBody (q : Rat) :
    mantissaVal (floatBody q) =
      some (q.num.natAbs * (10 ^ decExp q / q.den), decExp q) := by
  have hsplit : splitFirst (fun c => c = '.') (floatBody q) =
      some ((floatDigits q).take ((floatDigits q).length - decExp q),
        (floatDigits q).drop ((floatDigits q).length - decExp q)) := by
    apply splitFirst_app
    · simp
    · intro x hx
      have := floatDigits_digit q x (List.take_subset _ _ hx)
      simp [digit_ne_dot x this]
  have hne : floatDigits q ≠ [] := by
    intro h0
    have := floatDigits_len q
    rw [h0] at this
    simp at this
  rw [mantissaVal, hsplit]
  dsimp only
  rw [List.take_append_drop]
  rw [if_pos ⟨hne, List.all_eq_true.mpr (floatDigits_digit q)⟩]
  rw [digitsVal_floatDigits]
  have hlen := floatDigits_len q
  simp only [Option.some.injEq, Prod.mk.injEq, List.length_drop]
  exact ⟨trivial, by omega⟩

theorem floatBody_numLike : ∀ (q : Rat), ∀ c ∈ floatBody q, c.isDigit = true ∨ c = '.' := by
  intro q c hc
  rw [floatBody] at hc
  rcases List.mem_append.mp hc with hc | hc
  · exact Or.inl (floatDigits_digit q c (List.take_subset _ _ hc))
  · rcases List.mem_cons.mp hc with rfl | hc
    · exact Or.inr rfl
    · exact Or.inl (floatDigits_digit q c (List.drop_subset _ _ hc))

theorem floatBody_head (q : Rat) :
    ∃ d rest, floatBody q = d :: rest ∧ d.isDigit = true := by
  have hlen : 0 < (floatDigits q).length - decExp q + 0 ∨ True := Or.inr trivial
  rw [floatBody]
  cases htake : (floatDigits q).take ((floatDigits q).length - decExp q) with
  | nil =>
    exfalso
    have h1 := congrArg List.length htake
    rw [List.length_take] at h1
    have := floatDigits_len q
    have h2 : (floatDigits q).length - decExp q ≥ 1 := by omega
    simp only [List.length_nil] at h1
    omega
  | cons d t =>
    refine ⟨d, t ++ '.' :: (floatDigits q).drop ((floatDigits q).length - decExp q), by simp, ?_⟩
    have : d ∈ (floatDigits q).take ((floatDigits q).length - decExp q) := by
      rw [htake]; exact List.mem_cons_self _ _
    exact floatDigits_digit q d (List.take_subset _ _ this)

theorem dot_in_floatBody (q : Rat) : '.' ∈ floatBody q := by
  rw [floatBody]
  exact List.mem_append.mpr (Or.inr (List.mem_cons_self _ _))

theorem not_space_of_numLike (c : Char) (h : numLike c = true) : isSpaceChar c = false := by
  rw [numLike] at h
  simp only [Bool.or_eq_true, decide_eq_true_eq] at h
  rcases h with (h | rfl) | rfl
  · exact not_space_of_digit c h
  · rfl
  · rfl

theorem floatBody_strip (q : Rat) : pyStripChars (floatBody q) = floatBody q := by
  apply pyStripChars_id
  intro c hc
  rcases floatBody_numLike q c hc with h | rfl
  · exact not_space_of_digit c h
  · rfl

theorem floatBody_noE (q : Rat) :
    splitFirst (fun c => c = 'e' || c = 'E') (floatBody q) = none := by
  apply splitFirst_none
  intro c hc
  rcases floatBody_numLike q c hc with h | rfl
  · simp only [Bool.or_eq_false_iff, decide_eq_false_iff_not]
    constructor
    · intro hce; subst hce; simp at h
    · intro hce; subst hce; simp at h
  · rfl

theorem pyToFloatChars_eval (cs : List Char) (s : Int) (rest : List Char) (v k : Nat)
    (hstrip : pyStripChars cs = cs)
    (hsign : readSign cs = (s, rest))
    (hnoE : splitFirst (fun c => c = 'e' || c = 'E') rest = none)
    (hmant : mantissaVal rest = some (v, k)) :
    pyToFloatChars cs = some (mkRat (s * v) (10 ^ k)) := by
  rw [pyToFloatChars, hstrip, hsign]
  dsimp only
  rw [hnoE, hmant]
  rfl

theorem mkRat_scaled (q : Rat) (k : Nat) (hk : q.den ∣ 10 ^ k) (s : Int)
    (hs : s * (q.num.natAbs : Int) = q.num) :
    mkRat (s * (q.num.natAbs * (10 ^ k / q.den) : Nat)) (10 ^ k) = q := by
  have hc : q.den * (10 ^ k / q.den) = 10 ^ k := Nat.mul_div_cancel' hk
  set c := 10 ^ k / q.den with hcdef
  have hcne : c ≠ 0 := by
    intro h0
    rw [h0, Nat.mul_zero] at hc
    have : (0 : Nat) < 10 ^ k := Nat.pos_pow_of_pos k (by norm_num)
    omega
  have h1 : ((q.num.natAbs * c : Nat) : Int) = (q.num.natAbs : Int) * (c : Int) := by
    exact_mod_cast rfl
  have hnum : s * ((q.num.natAbs * c : Nat) : Int) = q.num * (c : Int) := by
    rw [h1, ← mul_assoc, hs]
  rw [← hc, hnum, Rat.mkRat_mul_right hcne, Rat.mkRat_self]

theorem pyToFloat_renderFloat (q : Rat) (h : DecimalDen q) :
    pyToFloat (renderFloat q) = some q := by
  rw [DecimalDen] at h
  rw [renderFloat, if_pos h, pyToFloat]
  by_cases hq : q.num < 0
  · rw [if_pos hq]
    rw [show ((⟨'-' :: floatBody q⟩ : String)).data = '-' :: floatBody q from rfl]
    have hstrip : pyStripChars ('-' :: floatBody q) = '-' :: floatBody q := by
      apply pyStripChars_id
      intro c hc
      rcases List.mem_cons.mp hc with rfl | hc
      · rfl
      · rcases floatBody_numLike q c hc with hd | rfl
        · exact not_space_of_digit c hd
        · rfl
    have hsign : readSign ('-' :: floatBody q) = (-1, floatBody q) := by
      simp [readSign]
    rw [pyToFloatChars_eval _ _ _ _ _ hstrip hsign (floatBody_noE q) (mantissa_floatBody q)]
    congr 1
    apply mkRat_scaled q (decExp q) h (-1)
    omega
  · rw [if_neg hq]
    rw [show ((⟨floatBody q⟩ : String)).data = floatBody q from rfl]
    have hstrip : pyStripChars (floatBody q) = floatBody q := floatBody_strip q
    obtain ⟨d, rest, hbody, hd⟩ := floatBody_head q
    have hsign : readSign (floatBody q) = (1, floatBody q) := by
      rw [hbody, readSign]
      simp only [if_neg (digit_ne_minus d hd), if_neg (digit_ne_plus d hd)]
    rw [pyToFloatChars_eval _ _ _ _ _ hstrip hsign (floatBody_noE q) (mantissa_floatBody q)]
    congr 1
    apply mkRat_scaled q (decExp q) h 1
    omega

theorem isFloatStr_renderFloat (q : Rat) (h : DecimalDen q) :
    isFloatStr (renderFloat q) = true := by
  rw [isFloatStr, pyToFloat_renderFloat q h]
  rfl

theorem all_eq_false_of_mem {α : Type} {p : α → Bool} {l : List α} {x : α}
    (hx : x ∈ l) (hpx : p x = false) : l.all p = false := by
  by_contra hc
  rw [Bool.not_eq_false, List.all_eq_true] at hc
  rw [hc x hx] at hpx
  simp at hpx

theorem renderFloat_data (q : Rat) (h : DecimalDen q) :
    (renderFloat q).data = (if q.num < 0 then '-' :: floatBody q else floatBody q) := by
  rw [DecimalDen] at h
  rw [renderFloat, if_pos h]
  by_cases hq : q.num < 0
  · rw [if_pos hq, if_pos hq]
  · rw [if_neg hq, if_neg hq]

theorem notNA_renderFloat (q : Rat) (h : DecimalDen q) :
    isNAToken (renderFloat q) = false := by
  have h1 : renderFloat q = (⟨(renderFloat q).data⟩ : String) := rfl
  rw [h1, renderFloat_data q h]
  by_cases hq : q.num < 0
  · rw [if_pos hq]
    apply notNA_of_numLike _ (by simp)
    intro c hc
    rcases List.mem_cons.mp hc with rfl | hc
    · rfl
    · rcases floatBody_numLike q c hc with hd | rfl
      · simp [numLike, hd]
      · rfl
  · rw [if_neg hq]
    apply notNA_of_numLike
    · obtain ⟨d, rest, hbody, _⟩ := floatBody_head q
      rw [hbody]
      simp
    · intro c hc
      rcases floatBody_numLike q c hc with hd | rfl
      · simp [numLike, hd]
      · rfl

theorem parseNat_floatBody (q : Rat) : parseNatChars (floatBody q) = none := by
  rw [parseNatChars, if_neg]
  intro hand
  have := all_eq_false_of_mem (dot_in_floatBody q) (by rfl : Char.isDigit '.' = false)
  rw [hand.2] at this
  simp at this

theorem isIntStr_renderFloat (q : Rat) (h : DecimalDen q) :
    isIntStr (renderFloat q) = false := by
  have h1 : renderFloat q = (⟨(renderFloat q).data⟩ : String) := rfl
  rw [isIntStr, pyToInt, h1, renderFloat_data q h]
  by_cases hq : q.num < 0
  · rw [if_pos hq]
    have hstrip : pyStripChars ('-' :: floatBody q) = '-' :: floatBody q := by
      apply pyStripChars_id
      intro c hc
      rcases List.mem_cons.mp hc with rfl | hc
      · rfl
      · rcases floatBody_numLike q c hc with hd | rfl
        · exact not_space_of_digit c hd
        · rfl
    rw [pyToIntChars_eq, hstrip]
    rw [show readSign ('-' :: floatBody q) = (-1, floatBody q) by simp [readSign]]
    rw [parseNat_floatBody]
    rfl
  · rw [if_neg hq]
    obtain ⟨d, rest, hbody, hd⟩ := floatBody_head q
    rw [pyToIntChars_eq, floatBody_strip q]
    rw [show readSign (floatBody q) = (1, floatBody q) by
      rw [hbody, readSign]
      simp only [if_neg (digit_ne_minus d hd), if_neg (digit_ne_plus d hd)]]
    rw [parseNat_floatBody]
    rfl

/-! ### CSV round-trip lemmas -/

theorem parse_escField :
    ∀ (f fld row acc rest : _),
      parseCsvAux (escField f ++ '"' :: rest) CsvMode.inq fld row acc =
        parseCsvAux rest CsvMode.postq (f.reverse ++ fld) row acc := by
  intro f
  induction f with
  | nil =>
    intro fld row acc rest
    simp [escField, parseCsvAux]
  | cons c f ih =>
    intro fld row acc rest
    by_cases hc : c = '"'
    · subst hc
      rw [show escField ('"' :: f) = '"' :: '"' :: escField f by simp [escField]]
      rw [List.cons_append, List.cons_append]
      rw [show parseCsvAux ('"' :: '"' :: (escField f ++ '"' :: rest)) CsvMode.inq fld row acc =
          parseCsvAux ('"' :: (escField f ++ '"' :: rest)) CsvMode.postq fld row acc by
        simp [parseCsvAux]]
      rw [show parseCsvAux ('"' :: (escField f ++ '"' :: rest)) CsvMode.postq fld row acc =
          parseCsvAux (escField f ++ '"' :: rest) CsvMode.inq ('"' :: fld) row acc by
        simp [parseCsvAux]]
      rw [ih]
      simp
    · rw [show escField (c :: f) = c :: escField f by simp [escField, hc]]
      rw [List.cons_append]
      rw [show parseCsvAux (c :: (escField f ++ '"' :: rest)) CsvMode.inq fld row acc =
          parseCsvAux (escField f ++ '"' :: rest) CsvMode.inq (c :: fld) row acc by
        simp [parseCsvAux, hc]]
      rw [ih]
      simp

theorem parse_plainField :
    ∀ (f : List Char), (∀ c ∈ f, csvSpecial c = false) →
      ∀ (fld row acc rest : _),
        parseCsvAux (f ++ rest) CsvMode.unq fld row acc =
          parseCsvAux rest CsvMode.unq (f.reverse ++ fld) row acc := by
  intro f
  induction f with
  | nil =>
    intro _ fld row acc rest
    simp
  | cons c f ih =>
    intro h fld row acc rest
    have hc := h c (List.mem_cons_self _ _)
    rw [csvSpecial] at hc
    simp only [Bool.or_eq_false_iff, decide_eq_false_iff_not] at hc
    rw [List.cons_append]
    rw [show parseCsvAux (c :: (f ++ rest)) CsvMode.unq fld row acc =
        parseCsvAux (f ++ rest) CsvMode.unq (c :: fld) row acc by
      simp [parseCsvAux, hc.1.1.1, hc.1.1.2, hc.1.2]]
    rw [ih (fun x hx => h x (List.mem_cons_of_mem _ hx))]
    simp

theorem sep_comma (m : CsvMode) (hm : m ≠ CsvMode.inq) (fld row acc rest) :
    parseCsvAux (',' :: rest) m fld row acc =
      parseCsvAux rest CsvMode.unq [] (fld.reverse :: row) acc := by
  cases m with
  | inq => exact absurd rfl hm
  | postq => simp [parseCsvAux]
  | unq => simp [parseCsvAux]

theorem sep_newline (m : CsvMode) (hm : m ≠ CsvMode.inq) (fld row acc rest) :
    parseCsvAux ('\n' :: rest) m fld row acc =
      parseCsvAux rest CsvMode.unq [] [] (((fld.reverse :: row).reverse) :: acc) := by
  cases m with
  | inq => exact absurd rfl hm
  | postq => simp [parseCsvAux]
  | unq => simp [parseCsvAux]

theorem parse_writeField (f : List Char) (row acc rest) :
    parseCsvAux (writeField f ++ rest) CsvMode.unq [] row acc =
      parseCsvAux rest (if needsQuote f then CsvMode.postq else CsvMode.unq)
        f.reverse row acc := by
  by_cases hq : needsQuote f
  · rw [writeField, if_pos hq, if_pos hq]
    rw [List.cons_append, List.append_assoc]
    rw [show (['"'] ++ rest : List Char) = '"' :: rest from rfl]
    rw [show parseCsvAux ('"' :: (escField f ++ '"' :: rest)) CsvMode.unq [] row acc =
        parseCsvAux (escField f ++ '"' :: rest) CsvMode.inq [] row acc by
      simp [parseCsvAux]]
    rw [parse_escField]
    simp
  · rw [writeField, if_neg hq, if_neg hq]
    have hall : ∀ c ∈ f, csvSpecial c = false := by
      intro c hc
      rw [needsQuote] at hq
      by_contra hcs
      rw [Bool.not_eq_false] at hcs
      exact hq (List.any_eq_true.mpr ⟨c, hc, hcs⟩)
    rw [parse_plainField f hall]
    simp

theorem quote_mode_ne_inq (f : List Char) :
    (if needsQuote f then CsvMode.postq else CsvMode.unq) ≠ CsvMode.inq := by
  by_cases hq : needsQuote f
  · rw [if_pos hq]; intro h; cases h
  · rw [if_neg hq]; intro h; cases h

theorem parse_writeRow :
    ∀ (fs : List (List Char)), fs ≠ [] →
      ∀ (row0 acc rest : _),
        parseCsvAux (writeRowChars fs ++ '\n' :: rest) CsvMode.unq [] row0 acc =
          parseCsvAux rest CsvMode.unq [] [] ((row0.reverse ++ fs) :: acc) := by
  intro fs
  induction fs with
  | nil => intro h; exact absurd rfl h
  | cons f fs ih =>
    intro _ row0 acc rest
    cases fs with
    | nil =>
      rw [show writeRowChars [f] = writeField f from rfl]
      rw [parse_writeField]
      rw [sep_newline _ (quote_mode_ne_inq f)]
      simp
    | cons g gs =>
      rw [show writeRowChars (f :: g :: gs) = writeField f ++ ',' :: writeRowChars (g :: gs)
        from rfl]
      rw [List.append_assoc, List.cons_append, parse_writeField]
      rw [sep_comma _ (quote_mode_ne_inq f)]
      rw [List.reverse_reverse]
      rw [ih (by simp) (f :: row0)]
      simp

theorem parse_writeCsv :
    ∀ (rows : List (List (List Char))) (acc : _), (∀ r ∈ rows, r ≠ []) →
      parseCsvAux (writeCsvChars rows) CsvMode.unq [] [] acc = acc.reverse ++ rows := by
  intro rows
  induction rows with
  | nil =>
    intro acc _
    simp [writeCsvChars, parseCsvAux]
  | cons r rows ih =>
    intro acc h
    rw [show writeCsvChars (r :: rows) = writeRowChars r ++ '\n' :: writeCsvChars rows
      from rfl]
    rw [parse_writeRow r (h r (List.mem_cons_self _ _)) [] acc]
    rw [List.reverse_nil, List.nil_append]
    rw [ih (r :: acc) (fun x hx => h x (List.mem_cons_of_mem _ hx))]
    simp

theorem parseCsv_writeCsv (rows : List (List String)) (h : ∀ r ∈ rows, r ≠ []) :
    parseCsv (writeCsv rows) = rows := by
  rw [parseCsv, writeCsv]
  rw [show ((⟨writeCsvChars (rows.map (fun r => r.map String.data))⟩ : String)).data =
      writeCsvChars (rows.map (fun r => r.map String.data)) from rfl]
  rw [parseCsvChars]
  rw [parse_writeCsv _ [] (by
    intro r hr
    rw [List.mem_map] at hr
    obtain ⟨r0, hr0, rfl⟩ := hr
    simpa using h r0 hr0)]
  rw [List.reverse_nil, List.nil_append, List.map_map]
  have hpt : ∀ r : List String,
      ((fun r => List.map (fun f => (⟨f⟩ : String)) r) ∘
        (fun r => List.map String.data r)) r = id r := by
    intro r
    have hid : ((fun f => (⟨f⟩ : String)) ∘ String.data) = id := funext (fun s => rfl)
    simp only [Function.comp, List.map_map, hid, List.map_id, id]
  rw [List.map_congr_left (fun r _ => hpt r)]
  exact List.map_id rows

/-! ### Duplicate guard and synchronizer lemmas -/

theorem rowIsDuplicate_iff (mi yi : Nat) (m ys : String) (row : List String) :
    rowIsDuplicate mi yi m ys row = true ↔
      row.get? mi = some m ∧ row.get? yi = some ys := by
  rw [rowIsDuplicate]
  by_cases h : max mi yi < row.length
  · rw [dif_pos h]
    have hmi : mi < row.length := lt_of_le_of_lt (le_max_left _ _) h
    have hyi : yi < row.length := lt_of_le_of_lt (le_max_right _ _) h
    rw [List.get?_eq_get hmi, List.get?_eq_get hyi]
    simp [Bool.and_eq_true, beq_iff_eq]
  · rw [dif_neg h]
    constructor
    · intro hfalse; cases hfalse
    · intro ⟨h1, h2⟩
      exfalso
      apply h
      have hmi : mi < row.length := by
        by_contra hc
        rw [List.get?_eq_none.mpr (le_of_not_lt hc)] at h1
        cases h1
      have hyi : yi < row.length := by
        by_contra hc
        rw [List.get?_eq_none.mpr (le_of_not_lt hc)] at h2
        cases h2
      omega

theorem find_duplicate_iff (rows : List (List String)) (mi yi : Nat) (m ys : String) :
    find_duplicate rows mi yi m ys = true ↔
      ∃ row ∈ rows, rowIsDuplicate mi yi m ys row = true := by
  induction rows with
  | nil => simp [find_duplicate]
  | cons row rest ih =>
    rw [find_duplicate]
    by_cases hr : rowIsDuplicate mi yi m ys row
    · simp [hr]
    · rw [if_neg hr, ih]
      constructor
      · intro ⟨x, hx, hdx⟩
        exact ⟨x, List.mem_cons_of_mem _ hx, hdx⟩
      · intro ⟨x, hx, hdx⟩
        rcases List.mem_cons.mp hx with rfl | hx
        · rw [hdx] at hr; exact absurd rfl hr
        · exact ⟨x, hx, hdx⟩

theorem find_duplicate_append (l1 l2 : List (List String)) (mi yi : Nat) (m ys : String) :
    find_duplicate (l1 ++ l2) mi yi m ys =
      (find_duplicate l1 mi yi m ys || find_duplicate l2 mi yi m ys) := by
  induction l1 with
  | nil => simp [find_duplicate]
  | cons row rest ih =>
    rw [List.cons_append, find_duplicate, find_duplicate]
    by_cases hr : rowIsDuplicate mi yi m ys row
    · simp [hr]
    · rw [if_neg hr, if_neg hr, ih]

theorem rowIsDuplicate_short (mi yi : Nat) (m ys : String) (row : List String)
    (h : row.length ≤ max mi yi) : rowIsDuplicate mi yi m ys row = false := by
  rw [rowIsDuplicate, dif_neg (not_lt.mpr h)]

theorem find_duplicate_skip_short (mi yi : Nat) (m ys : String) (row : List String)
    (h : row.length ≤ max mi yi) (pre post : List (List String)) :
    find_duplicate (pre ++ row :: post) mi yi m ys = find_duplicate (pre ++ post) mi yi m ys := by
  rw [find_duplicate_append, find_duplicate_append]
  rw [show find_duplicate (row :: post) mi yi m ys = find_duplicate post mi yi m ys by
    rw [find_duplicate, rowIsDuplicate_short mi yi m ys row h]
    rfl]

theorem extract_rows_length (l : List (List String)) :
    (extract_rows l).length = l.countP (fun r => (parseRow r).isSome) := by
  rw [extract_rows]
  induction l with
  | nil => rfl
  | cons x xs ih =>
    rw [List.filterMap_cons, List.countP_cons]
    cases hp : parseRow x with
    | none => simpa [hp] using ih
    | some v => simpa [hp] using ih

theorem parseRow_not7 (cols : List String) (h : cols.length ≠ 7) : parseRow cols = none := by
  rw [parseRow, dif_neg h]

theorem month_name_valid (m : Int) (h1 : 1 ≤ m) (h2 : m ≤ 12) :
    month_name m = some (month_name_list.getD m.toNat "") := by
  interval_cases m <;> rfl

theorem month_name_big (m : Int) (h : 13 ≤ m ∨ m ≤ -14) : month_name m = none := by
  rw [month_name, pyListGet]
  rcases h with h | h
  · rw [if_pos (by omega)]
    rw [if_neg (by simp [month_name_list]; omega)]
  · rw [if_neg (by omega)]
    rw [if_neg (by simp [month_name_list]; omega)]

theorem update_nil_records (t : ReportTable) (h : t.records = []) (snapshot : List (List String)) :
    update_google_sheet t snapshot =
      .exn "IndexError: single positional indexer is out-of-bounds" := by
  rw [update_google_sheet, h]

theorem update_empty (t : ReportTable) (hne : t.records ≠ []) :
    update_google_sheet t [] =
      .ok (.written (columns_order.map CellValue.str :: sheet_payload t) 1) := by
  rw [update_google_sheet]
  cases hrec : t.records with
  | nil => exact absurd hrec hne
  | cons r rs => rfl

theorem update_cons (t : ReportTable) (hne : t.records ≠ []) (headers : List String)
    (dataRows : List (List String)) (mi yi : Nat)
    (hmi : listIndex headers "Month" = some mi) (hyi : listIndex headers "Year" = some yi) :
    update_google_sheet t (headers :: dataRows) =
      (if find_duplicate dataRows mi yi t.month (renderInt t.year) then .ok .skipped
       else .ok (.written (sheet_payload t) ((headers :: dataRows).length + 1))) := by
  rw [update_google_sheet]
  cases hrec : t.records with
  | nil => exact absurd hrec hne
  | cons r rs =>
    dsimp only
    rw [hmi, hyi]

theorem update_cons_noidx (t : ReportTable) (hne : t.records ≠ []) (headers : List String)
    (dataRows : List (List String))
    (hbad : listIndex headers "Month" = none ∨ listIndex headers "Year" = none) :
    update_google_sheet t (headers :: dataRows) =
      .exn "Could not find Month or Year columns in existing sheet" := by
  rw [update_google_sheet]
  cases hrec : t.records with
  | nil => exact absurd hrec hne
  | cons r rs =>
    dsimp only
    rcases hbad with hbad | hbad
    · rw [hbad]
    · rw [hbad]
      cases listIndex headers "Month" <;> rfl

/-! ### Claims -/

/-- C5: the Row Parser's cell coercion sends the currency cells
`"$1,234.50"`, `"1,234.50"` and `""` to `1234.50`, `1234.50` and `0.0`,
the percentage cell `"12.5%"` to `12.5`, and any currency cell that is
empty after stripping `$` and `,` to `0` rather than failing. -/
theorem C5_numeric_coercion :
    coerceCurrency "$1,234.50" = some (1234.5 : Rat) ∧
    coerceCurrency "1,234.50" = some (1234.5 : Rat) ∧
    coerceCurrency "" = some (0 : Rat) ∧
    coercePercent "12.5%" = some (12.5 : Rat) ∧
    ∀ s : String, removeChar ',' (removeChar '$' (pyStrip s)) = "" →
      coerceCurrency s = some (0 : Rat) := by
  have hval : (mkRat 123450 100 : Rat) = 1234.5 := by
    rw [Rat.mkRat_eq_div]
    norm_num
  have hzero : (mkRat 0 1 : Rat) = 0 := by
    rw [Rat.mkRat_eq_div]
    norm_num
  refine ⟨?_, ?_, ?_, ?_, ?_⟩
  · rw [show coerceCurrency "$1,234.50" = some (mkRat 123450 100) from by decide, hval]
  · rw [show coerceCurrency "1,234.50" = some (mkRat 123450 100) from by decide, hval]
  · rw [show coerceCurrency "" = some (mkRat 0 1) from by decide, hzero]
  · rw [show coercePercent "12.5%" = some (mkRat 125 10) from by decide]
    rw [show (mkRat 125 10 : Rat) = 12.5 from by rw [Rat.mkRat_eq_div]; norm_num]
  · intro s h
    rw [coerceCurrency, h]
    rw [show pyToFloat (orDefault "") = some (mkRat 0 1) from by decide, hzero]

/-- C5 witness: a cell of pure punctuation strips to the empty string and
coerces to zero. -/
theorem C5_numeric_coercion_witness :
    removeChar ',' (removeChar '$' (pyStrip " $,, ")) = "" ∧
    coerceCurrency " $,, " = some (0 : Rat) :=
  ⟨by decide, C5_numeric_coercion.2.2.2.2 " $,, " (by decide)⟩

/-- C2: the Duplicate Guard reports a duplicate iff some data row carries
the month at the month column and the year text at the year column
(short rows cannot match); an empty snapshot is never a duplicate; and
rows after the first match never change the verdict. -/
theorem C2_duplicate_guard :
    ∀ (rows : List (List String)) (mi yi : Nat) (m ys : String),
      (find_duplicate rows mi yi m ys = true ↔
        ∃ row ∈ rows, row.get? mi = some m ∧ row.get? yi = some ys) ∧
      find_duplicate [] mi yi m ys = false ∧
      (∀ (pre row post post' : _), row.get? mi = some m → row.get? yi = some ys →
        find_duplicate (pre ++ row :: post) mi yi m ys =
          find_duplicate (pre ++ row :: post') mi yi m ys) := by
  intro rows mi yi m ys
  refine ⟨?_, rfl, ?_⟩
  · rw [find_duplicate_iff]
    constructor
    · intro ⟨row, hmem, hdup⟩
      exact ⟨row, hmem, (rowIsDuplicate_iff mi yi m ys row).mp hdup⟩
    · intro ⟨row, hmem, h1, h2⟩
      exact ⟨row, hmem, (rowIsDuplicate_iff mi yi m ys row).mpr ⟨h1, h2⟩⟩
  · intro pre row post post' h1 h2
    have hmatch : ∀ post0 : List (List String),
        find_duplicate (pre ++ row :: post0) mi yi m ys = true := by
      intro post0
      rw [find_duplicate_iff]
      exact ⟨row, List.mem_append.mpr (Or.inr (List.mem_cons_self _ _)),
        (rowIsDuplicate_iff mi yi m ys row).mpr ⟨h1, h2⟩⟩
    rw [hmatch post, hmatch post']

/-- C2 witness: a concrete scan where the single data row carries the
period finds the duplicate. -/
theorem C2_duplicate_guard_witness :
    find_duplicate [["March", "2024"]] 0 1 "March" "2024" = true :=
  (C2_duplicate_guard [["March", "2024"]] 0 1 "March" "2024").1.mpr
    ⟨["March", "2024"], by decide, by decide, by decide⟩

/-- C10: during the duplicate scan a data row too short to hold both the
month and year positions is never a match and never affects the verdict
(its cells are only accessed under the length guard). -/
theorem C10_short_row_guard :
    ∀ (mi yi : Nat) (m ys : String) (row : List String),
      row.length ≤ max mi yi →
      rowIsDuplicate mi yi m ys row = false ∧
      ∀ (pre post : List (List String)),
        find_duplicate (pre ++ row :: post) mi yi m ys =
          find_duplicate (pre ++ post) mi yi m ys := by
  intro mi yi m ys row h
  exact ⟨rowIsDuplicate_short mi yi m ys row h,
    fun pre post => find_duplicate_skip_short mi yi m ys row h pre post⟩

/-- C10 witness: a one-cell row is ignored when the year column sits at
position 1. -/
theorem C10_short_row_guard_witness :
    rowIsDuplicate 0 1 "March" "2024" ["March"] = false ∧
    find_duplicate ([["h"]] ++ ["March"] :: [["March", "2024"]]) 0 1 "March" "2024" =
      find_duplicate ([["h"]] ++ [["March", "2024"]]) 0 1 "March" "2024" := by
  have h := C10_short_row_guard 0 1 "March" "2024" ["March"] (by decide)
  exact ⟨h.1, h.2 [["h"]] [["March", "2024"]]⟩

/-- C7: a nonempty snapshot whose header lacks the `Month` or the `Year`
column makes the synchronization raise (surfacing the schema mismatch to
the caller), and no write outcome is produced. -/
theorem C7_schema_mismatch :
    ∀ (t : ReportTable) (headers : List String) (dataRows : List (List String)),
      listIndex headers "Month" = none ∨ listIndex headers "Year" = none →
      ∃ msg, update_google_sheet t (headers :: dataRows) = .exn msg := by
  intro t headers dataRows hbad
  cases hrec : t.records with
  | nil => exact ⟨_, update_nil_records t hrec _⟩
  | cons r rs =>
    exact ⟨_, update_cons_noidx t (by rw [hrec]; simp) headers dataRows hbad⟩

/-- C7 witness: a header with neither column makes the synchronizer
raise. -/
theorem C7_schema_mismatch_witness :
    ∃ msg,
      update_google_sheet
        ⟨"March", 2024, [⟨"A", "B", "C", 1, mkRat 1 1, mkRat 1 1, mkRat 1 1⟩]⟩
        [["Mo", "Yr"], ["March", "2024"]] = .exn msg :=
  C7_schema_mismatch _ ["Mo", "Yr"] [["March", "2024"]] (Or.inl (by decide))

/-- C3: with at least one record to write, an empty snapshot receives a
header row followed by the data at row 1, and whenever the synchronizer
writes against a nonempty snapshot of H rows (its header included) the
payload starts at row H+1 and contains no header row — it is exactly the
cleaned data rows. -/
theorem C3_append_location :
    ∀ (t : ReportTable) (snapshot : List (List String)), t.records ≠ [] →
      (snapshot = [] →
        update_google_sheet t snapshot =
          .ok (.written (columns_order.map CellValue.str :: sheet_payload t) 1)) ∧
      (∀ v r, update_google_sheet t snapshot = .ok (.written v r) → snapshot ≠ [] →
        r = snapshot.length + 1 ∧ v = sheet_payload t) := by
  intro t snapshot hne
  constructor
  · intro hempty
    subst hempty
    exact update_empty t hne
  · intro v r hupd hsnap
    cases snapshot with
    | nil => exact absurd rfl hsnap
    | cons headers dataRows =>
      cases hmi : listIndex headers "Month" with
      | none =>
        rw [update_cons_noidx t hne headers dataRows (Or.inl hmi)] at hupd
        cases hupd
      | some mi =>
        cases hyi : listIndex headers "Year" with
        | none =>
          rw [update_cons_noidx t hne headers dataRows (Or.inr hyi)] at hupd
          cases hupd
        | some yi =>
          rw [update_cons t hne headers dataRows mi yi hmi hyi] at hupd
          by_cases hdup : find_duplicate dataRows mi yi t.month (renderInt t.year)
          · rw [if_pos hdup] at hupd
            cases hupd
          · rw [if_neg hdup] at hupd
            injection hupd with h1
            injection h1 with h2 h3
            exact ⟨h3.symm, h2.symm⟩

/-- C3 witness: a one-record table against the empty snapshot is written
with a header at row 1, and against a two-row snapshot it is written at
row 3. -/
theorem C3_append_location_witness :
    update_google_sheet
      ⟨"March", 2024, [⟨"A", "B", "C", 1, mkRat 1 1, mkRat 1 1, mkRat 1 1⟩]⟩ [] =
      .ok (.written
        (columns_order.map CellValue.str ::
          sheet_payload ⟨"March", 2024, [⟨"A", "B", "C", 1, mkRat 1 1, mkRat 1 1, mkRat 1 1⟩]⟩)
        1) :=
  (C3_append_location
    ⟨"March", 2024, [⟨"A", "B", "C", 1, mkRat 1 1, mkRat 1 1, mkRat 1 1⟩]⟩ []
    (by decide)).1 rfl

/-- C9 counterexample: the row parser accepts a units cell of `"-5"` and
produces a record with negative `units_sold`, so the invariant does not
hold for every input table. -/
theorem C9_counterexample :
    ¬ ∀ rec ∈ extract_rows [["A", "B", "C", "-5", "0", "0", "0"]], 0 ≤ rec.units_sold := by
  decide

theorem mem_of_mem_strip (x : Char) (cs : List Char) (h : x ∈ pyStripChars cs) : x ∈ cs := by
  rw [pyStripChars] at h
  rw [List.mem_reverse] at h
  have h1 := (List.dropWhile_sublist (l := (cs.dropWhile isSpaceChar).reverse)
    (p := isSpaceChar)).mem h
  rw [List.mem_reverse] at h1
  exact (List.dropWhile_sublist (l := cs) (p := isSpaceChar)).mem h1

theorem readSign_fst_no_minus (cs : List Char) (h : '-' ∉ cs) : (readSign cs).1 = 1 := by
  cases cs with
  | nil => rfl
  | cons c r =>
    rw [readSign]
    rw [if_neg (fun hc => h (by rw [← hc]; exact List.mem_cons_self c r))]
    by_cases hp : c = '+'
    · rw [if_pos hp]
    · rw [if_neg hp]

theorem pyToInt_nonneg (s : String) (h : '-' ∉ s.data) (u : Int)
    (hu : pyToInt s = some u) : 0 ≤ u := by
  rw [pyToInt, pyToIntChars_eq] at hu
  have hmem : '-' ∉ pyStripChars s.data := fun hc => h (mem_of_mem_strip _ _ hc)
  rw [readSign_fst_no_minus _ hmem] at hu
  cases hp : parseNatChars (readSign (pyStripChars s.data)).2 with
  | none => rw [hp] at hu; cases hu
  | some n =>
    rw [hp, Option.map_some'] at hu
    injection hu with hu
    rw [← hu, one_mul]
    exact Int.natCast_nonneg n

theorem coerceUnits_nonneg (s : String) (h : '-' ∉ s.data) (u : Int)
    (hu : coerceUnits s = some u) : 0 ≤ u := by
  rw [coerceUnits, orDefault] at hu
  by_cases hz : pyStrip s = ""
  · rw [if_pos hz] at hu
    rw [show pyToInt "0" = some 0 from by decide] at hu
    injection hu with hu
    omega
  · rw [if_neg hz] at hu
    apply pyToInt_nonneg (pyStrip s) _ u hu
    intro hc
    rw [pyStrip] at hc
    exact h (mem_of_mem_strip _ _ hc)

/-- C9 (amended): every record the Row Parser produces from a table whose
units cells contain no minus sign has `units_sold ≥ 0`; blank units cells
default to `0`. -/
theorem C9_units_nonneg :
    ∀ (dataRows : List (List String)),
      (∀ cols ∈ dataRows, '-' ∉ (cols.getD 3 "").data) →
      ∀ rec ∈ extract_rows dataRows, 0 ≤ rec.units_sold := by
  intro dataRows hminus rec hrec
  rw [extract_rows, List.mem_filterMap] at hrec
  obtain ⟨cols, hmem, hparse⟩ := hrec
  rw [parseRow] at hparse
  by_cases h7 : cols.length = 7
  · rw [dif_pos h7, Option.bind_eq_some] at hparse
    obtain ⟨u, hcu, hparse⟩ := hparse
    rw [Option.bind_eq_some] at hparse
    obtain ⟨n, hn, hparse⟩ := hparse
    rw [Option.bind_eq_some] at hparse
    obtain ⟨rr, hrr, hparse⟩ := hparse
    rw [Option.map_eq_some'] at hparse
    obtain ⟨roy, hry, hrec⟩ := hparse
    have hget : cols.get ⟨3, by omega⟩ = cols.getD 3 "" := by
      rw [List.getD_eq_getElem?_getD, List.getElem?_eq_getElem (by omega)]
      simp [List.get_eq_getElem]
    have hunits : rec.units_sold = u := by rw [← hrec]
    rw [hunits]
    apply coerceUnits_nonneg (cols.get ⟨3, by omega⟩) _ u hcu
    rw [hget]
    exact hminus cols hmem
  · rw [dif_neg h7] at hparse
    cases hparse

/-- C9 witness: the spec's example row has a minus-free units cell, and
the record it parses to has nonnegative units. -/
theorem C9_units_nonneg_witness :
    0 ≤ (SalesRecord.mk "Acme" "Book A" "SKU1" 10
      (mkRat 100 1) (mkRat 15 1) (mkRat 15 1)).units_sold :=
  C9_units_nonneg [["Acme", "Book A", "SKU1", "10", "$100.00", "15%", "$15.00"]]
    (by decide) _ (by decide)

/-- C8 counterexample: month number `0` is outside 1–12, yet the Table
Normalizer does not raise — Python's `calendar.month_name[0]` is the empty
string, so a table with an empty month name is produced. -/
theorem C8_counterexample :
    normalize_table [⟨"A", "B", "C", 1, mkRat 1 1, mkRat 1 1, mkRat 1 1⟩] 0 2024 =
      .ok ⟨"", 2024, [⟨"A", "B", "C", 1, mkRat 1 1, mkRat 1 1, mkRat 1 1⟩]⟩ := by
  decide

/-- C8 (amended): for a month number in 1–12 the Table Normalizer yields
the table with the month's full English name and the given year, columns
in the fixed order; a month number at least 13 or at most -14 raises
(numbers in -13..0 instead hit Python's negative indexing). -/
theorem C8_table_normalizer :
    ∀ (records : List SalesRecord) (m y : Int),
      (1 ≤ m → m ≤ 12 →
        normalize_table records m y =
          .ok { month := month_name_list.getD m.toNat "", year := y, records := records } ∧
        (ReportTable.mk (month_name_list.getD m.toNat "") y records).toCells =
          records.map (fun r =>
            [CellValue.str (month_name_list.getD m.toNat ""), .int y, .str r.publisher,
             .str r.title, .str r.sku, .int r.units_sold, .float r.net,
             .float r.royalty_rate, .float r.royalties])) ∧
      (13 ≤ m ∨ m ≤ -14 → ∃ msg, normalize_table records m y = .exn msg) := by
  intro records m y
  constructor
  · intro h1 h2
    constructor
    · rw [normalize_table, month_name_valid m h1 h2]
    · rfl
  · intro hbig
    rw [normalize_table, month_name_big m hbig]
    exact ⟨_, rfl⟩

/-- C8 witness: month 3 maps to March with the fixed column order, and
month 13 raises. -/
theorem C8_table_normalizer_witness :
    normalize_table [⟨"A", "B", "C", 1, mkRat 1 1, mkRat 1 1, mkRat 1 1⟩] 3 2024 =
      .ok { month := month_name_list.getD (3 : Int).toNat "", year := 2024,
            records := [⟨"A", "B", "C", 1, mkRat 1 1, mkRat 1 1, mkRat 1 1⟩] } ∧
    ∃ msg,
      normalize_table [⟨"A", "B", "C", 1, mkRat 1 1, mkRat 1 1, mkRat 1 1⟩] 13 2024 =
        .exn msg :=
  ⟨(C8_table_normalizer _ 3 2024).1 (by decide) (by decide) |>.1,
   (C8_table_normalizer _ 13 2024).2 (Or.inl (by decide))⟩

/-- C4: for a table of one header row and data rows, the parser yields
exactly as many records as there are rows on which every coercion
succeeds — rows with a cell count other than 7 are skipped without error
and never parse, and a coercion failure excludes only its own row. -/
theorem C4_row_count :
    ∀ (header : List String) (dataRows : List (List String)) (m y : Int),
      1 ≤ m → m ≤ 12 →
      0 < dataRows.countP (fun r => (parseRow r).isSome) →
      (∃ t, process_sales_table (header :: dataRows) m y = .ok (some t) ∧
        t.records.length = dataRows.countP (fun r => (parseRow r).isSome)) ∧
      ∀ r ∈ dataRows, r.length ≠ 7 → parseRow r = none := by
  intro header dataRows m y h1 h2 hcount
  constructor
  · have hle := List.countP_le_length (p := fun r => (parseRow r).isSome) (l := dataRows)
    have hlen : ¬ (header :: dataRows).length < 2 := by
      rw [List.length_cons]
      omega
    have hdata : ¬ ((extract_rows (header :: dataRows).tail).isEmpty = true) := by
      rw [List.tail_cons, List.isEmpty_iff_length_eq_zero, extract_rows_length]
      omega
    rw [process_sales_table, if_neg hlen, if_neg hdata, List.tail_cons]
    rw [normalize_table, month_name_valid m h1 h2]
    exact ⟨_, rfl, extract_rows_length dataRows⟩
  · intro r _ h7
    exact parseRow_not7 r h7

/-- C4 witness: the spec's two well-formed example rows plus a two-cell
totals row parse to exactly two records. -/
theorem C4_row_count_witness :
    (∃ t, process_sales_table
        (["h"] :: [["Acme", "Book A", "SKU1", "10", "$100.00", "15%", "$15.00"],
          ["Acme", "Book B", "SKU2", "0", "$0.00", "0%", "$0.00"], ["tot", "x"]])
        3 2024 = .ok (some t) ∧
      t.records.length =
        [["Acme", "Book A", "SKU1", "10", "$100.00", "15%", "$15.00"],
         ["Acme", "Book B", "SKU2", "0", "$0.00", "0%", "$0.00"],
         ["tot", "x"]].countP (fun r => (parseRow r).isSome)) ∧
    ∀ r ∈ [["Acme", "Book A", "SKU1", "10", "$100.00", "15%", "$15.00"],
        ["Acme", "Book B", "SKU2", "0", "$0.00", "0%", "$0.00"], ["tot", "x"]],
      r.length ≠ 7 → parseRow r = none :=
  C4_row_count ["h"] _ 3 2024 (by decide) (by decide) (by decide)

theorem listIndex_head (headers : List String) (h : headers.get? 0 = some "Month") :
    listIndex headers "Month" = some 0 := by
  cases headers with
  | nil => cases h
  | cons a r =>
    rw [List.get?_cons_zero] at h
    injection h with h
    rw [listIndex, if_pos h]

theorem listIndex_second (headers : List String) (h0 : headers.get? 0 = some "Month")
    (h1 : headers.get? 1 = some "Year") : listIndex headers "Year" = some 1 := by
  cases headers with
  | nil => cases h0
  | cons a r =>
    rw [List.get?_cons_zero] at h0
    injection h0 with h0
    cases r with
    | nil => cases h1
    | cons b r2 =>
      rw [List.get?_cons_succ, List.get?_cons_zero] at h1
      injection h1 with h1
      rw [listIndex, if_neg (by rw [h0]; decide), listIndex, if_pos h1]
      rfl

theorem disp_payload_cons (t : ReportTable) (rec : SalesRecord) (rs : List SalesRecord)
    (h : t.records = rec :: rs) :
    (sheet_payload t).map (fun row => row.map displayCell) =
      [pyStrip t.month, renderInt t.year, pyStrip rec.publisher, pyStrip rec.title,
       pyStrip rec.sku, renderInt rec.units_sold, displayCell (CellValue.float rec.net),
       displayCell (CellValue.float rec.royalty_rate),
       displayCell (CellValue.float rec.royalties)] ::
      rs.map (fun r =>
        [pyStrip t.month, renderInt t.year, pyStrip r.publisher, pyStrip r.title,
         pyStrip r.sku, renderInt r.units_sold, displayCell (CellValue.float r.net),
         displayCell (CellValue.float r.royalty_rate),
         displayCell (CellValue.float r.royalties)]) := by
  rw [sheet_payload, ReportTable.toCells, h]
  simp only [List.map_map, List.map_cons, Function.comp]
  rfl

/-- C1 counterexample: against a snapshot that already contains the
table's period, the first call is already a skip — no write happens at
all, so it is not the case that, for every snapshot, the first of two
calls appends and exactly one write results. -/
theorem C1_counterexample :
    update_google_sheet
      ⟨"March", 2024, [⟨"Acme", "BookA", "SKU1", 10, mkRat 100 1, mkRat 15 1, mkRat 15 1⟩]⟩
      [["Month", "Year"], ["March", "2024"]] = .ok .skipped ∧
    update_google_sheet
      ⟨"March", 2024, [⟨"Acme", "BookA", "SKU1", 10, mkRat 100 1, mkRat 15 1, mkRat 15 1⟩]⟩
      (applyOutcome [["Month", "Year"], ["March", "2024"]] SyncOutcome.skipped) =
      .ok .skipped := by
  constructor
  · decide
  · decide

/-- C1 (amended): for a table with at least one record whose month text is
unchanged by stripping, and a snapshot that does not already contain the
period and whose header (when present) has `Month` at position 0 and
`Year` at position 1 (the payload's fixed order), running the
synchronizer twice against the evolving remote state gives exactly one
write: the first call writes, the second reports `skipped`. -/
theorem C1_idempotent_sync :
    ∀ (t : ReportTable) (snapshot : List (List String)),
      t.records ≠ [] →
      pyStrip t.month = t.month →
      (snapshot = [] ∨
        ∃ headers dataRows, snapshot = headers :: dataRows ∧
          headers.get? 0 = some "Month" ∧ headers.get? 1 = some "Year" ∧
          find_duplicate dataRows 0 1 t.month (renderInt t.year) = false) →
      ∃ v r, update_google_sheet t snapshot = .ok (.written v r) ∧
        update_google_sheet t (applyOutcome snapshot (.written v r)) = .ok .skipped := by
  intro t snapshot hne hstripm hsnap
  obtain ⟨rec, rs, hrec⟩ : ∃ rec rs, t.records = rec :: rs := by
    cases h : t.records with
    | nil => exact absurd h hne
    | cons a b => exact ⟨a, b, rfl⟩
  have hdisp := disp_payload_cons t rec rs hrec
  have hheadmatch : rowIsDuplicate 0 1 t.month (renderInt t.year)
      [pyStrip t.month, renderInt t.year, pyStrip rec.publisher, pyStrip rec.title,
       pyStrip rec.sku, renderInt rec.units_sold, displayCell (CellValue.float rec.net),
       displayCell (CellValue.float rec.royalty_rate),
       displayCell (CellValue.float rec.royalties)] = true := by
    rw [rowIsDuplicate_iff]
    constructor
    · show some (pyStrip t.month) = some t.month
      rw [hstripm]
    · rfl
  rcases hsnap with rfl | ⟨headers, dataRows, rfl, h0, h1, hnodup⟩
  · refine ⟨columns_order.map CellValue.str :: sheet_payload t, 1,
      update_empty t hne, ?_⟩
    rw [applyOutcome]
    rw [show (([] : List (List String)).take (1 - 1)) = [] from rfl]
    rw [List.drop_nil, List.append_nil, List.nil_append]
    rw [List.map_cons]
    rw [show (columns_order.map CellValue.str).map displayCell = columns_order from rfl]
    rw [hdisp]
    rw [update_cons t hne columns_order _ 0 1 (by decide) (by decide)]
    rw [find_duplicate, if_pos hheadmatch]
    rfl
  · have hmi := listIndex_head headers h0
    have hyi := listIndex_second headers h0 h1
    refine ⟨sheet_payload t, (headers :: dataRows).length + 1, ?_, ?_⟩
    · rw [update_cons t hne headers dataRows 0 1 hmi hyi, hnodup]
      rfl
    · rw [applyOutcome]
      rw [Nat.add_sub_cancel]
      rw [List.take_length]
      rw [List.drop_eq_nil_of_le (by omega)]
      rw [List.append_nil, List.cons_append]
      rw [update_cons t hne headers _ 0 1 hmi hyi]
      rw [find_duplicate_append, hnodup, hdisp, find_duplicate, if_pos hheadmatch]
      rfl

/-- C1 witness: a concrete run against the empty snapshot writes once and
then skips. -/
theorem C1_idempotent_sync_witness :
    ∃ v r,
      update_google_sheet
        ⟨"March", 2024, [⟨"Acme", "BookA", "SKU1", 10, mkRat 100 1, mkRat 15 1, mkRat 15 1⟩]⟩
        [] = .ok (.written v r) ∧
      update_google_sheet
        ⟨"March", 2024, [⟨"Acme", "BookA", "SKU1", 10, mkRat 100 1, mkRat 15 1, mkRat 15 1⟩]⟩
        (applyOutcome [] (.written v r)) = .ok .skipped :=
  C1_idempotent_sync
    ⟨"March", 2024, [⟨"Acme", "BookA", "SKU1", 10, mkRat 100 1, mkRat 15 1, mkRat 15 1⟩]⟩
    [] (by decide) (by decide) (Or.inl rfl)

/-! ### Column inference lemmas -/

theorem strInfersSelf_spec (s : String) (h : strInfersSelf s = true) :
    isNAToken s = false ∧ isIntStr s = false ∧ isFloatStr s = false ∧
      isBoolStr s = false := by
  rw [strInfersSelf] at h
  simp only [Bool.and_eq_true, Bool.not_eq_true'] at h
  exact ⟨h.1.1.1, h.1.1.2, h.1.2, h.2⟩

theorem filter_notNA_id (cells : List String) (h : ∀ s ∈ cells, isNAToken s = false) :
    cells.filter (fun s => ¬ isNAToken s) = cells := by
  rw [List.filter_eq_self]
  intro s hs
  simp [h s hs]

theorem columnKind_obj (cells : List String) (hne : cells ≠ [])
    (h : ∀ s ∈ cells, strInfersSelf s = true) : columnKind cells = .kobj := by
  obtain ⟨c, cs, rfl⟩ : ∃ c cs, cells = c :: cs := by
    cases cells with
    | nil => exact absurd rfl hne
    | cons c cs => exact ⟨c, cs, rfl⟩
  have hc := strInfersSelf_spec c (h c (List.mem_cons_self _ _))
  rw [columnKind]
  rw [filter_notNA_id _ (fun s hs => (strInfersSelf_spec s (h s hs)).1)]
  rw [if_neg, if_neg, if_neg]
  · rw [show ((c :: cs).all isBoolStr) = false from
      all_eq_false_of_mem (List.mem_cons_self _ _) hc.2.2.2]
    simp
  · rw [show ((c :: cs).all isFloatStr) = false from
      all_eq_false_of_mem (List.mem_cons_self _ _) hc.2.2.1]
    simp
  · rw [show ((c :: cs).all isIntStr) = false from
      all_eq_false_of_mem (List.mem_cons_self _ _) hc.2.1]
    simp

theorem columnKind_int (cells : List String)
    (h : ∀ s ∈ cells, isIntStr s = true ∧ isNAToken s = false) :
    columnKind cells = .kint := by
  rw [columnKind]
  rw [filter_notNA_id _ (fun s hs => (h s hs).2)]
  rw [if_pos (List.all_eq_true.mpr (fun s hs => (h s hs).1))]
  rw [if_pos (List.all_eq_true.mpr (fun s hs => by simp [(h s hs).2]))]

theorem columnKind_float (cells : List String) (hne : cells ≠ [])
    (h : ∀ s ∈ cells, isFloatStr s = true ∧ isIntStr s = false ∧ isNAToken s = false) :
    columnKind cells = .kfloat := by
  obtain ⟨c, cs, rfl⟩ : ∃ c cs, cells = c :: cs := by
    cases cells with
    | nil => exact absurd rfl hne
    | cons c cs => exact ⟨c, cs, rfl⟩
  rw [columnKind]
  rw [filter_notNA_id _ (fun s hs => (h s hs).2.2)]
  rw [if_neg, if_pos (List.all_eq_true.mpr (fun s hs => (h s hs).1))]
  rw [show ((c :: cs).all isIntStr) = false from
    all_eq_false_of_mem (List.mem_cons_self _ _)
      (h c (List.mem_cons_self _ _)).2.1]
  simp

theorem inferCell_obj (s : String) (h : isNAToken s = false) :
    inferCell .kobj s = .str s := by
  rw [inferCell, if_neg (by simp [h])]

theorem inferCell_int (n : Int) : inferCell .kint (renderInt n) = .int n := by
  rw [inferCell, pyToInt_renderInt]
  rfl

theorem inferCell_float (q : Rat) (h : DecimalDen q) :
    inferCell .kfloat (renderFloat q) = .float q := by
  rw [inferCell, if_neg (by simp [notNA_renderFloat q h]), pyToFloat_renderFloat q h]
  rfl

theorem padRow_id (n : Nat) (r : List String) (h : r.length = n) : padRow n r = r := by
  rw [padRow, h, Nat.sub_self, List.replicate_zero, List.append_nil]

set_option maxRecDepth 10000 in
/-- C6 counterexample: a table whose SKU text is `"123"` does not survive
the save/load round trip — `read_csv` infers an integer column, so the
loaded table holds the number `123` where the original held the string. -/
theorem C6_counterexample :
    load_existing_report (save_to_local_file
      ⟨"March", 2024, [⟨"Acme", "Book", "123", 5, mkRat 10 1, mkRat 15 1, mkRat 3 2⟩]⟩) ≠
      some (columns_order,
        (⟨"March", 2024, [⟨"Acme", "Book", "123", 5, mkRat 10 1, mkRat 15 1, mkRat 3 2⟩]⟩ :
          ReportTable).toCells) := by
  decide

theorem forall_mem_cons_map {α β : Type} (P : β → Prop) (b : β) (g : α → β) (l : List α)
    (hb : P b) (hl : ∀ a ∈ l, P (g a)) : ∀ s ∈ b :: l.map g, P s := by
  intro s hs
  rcases List.mem_cons.mp hs with rfl | hs
  · exact hb
  · rw [List.mem_map] at hs
    obtain ⟨a, ha, rfl⟩ := hs
    exact hl a ha

/-- C6 (amended): the save/load round trip reproduces the table
field-for-field (same row order, values, and types) provided each text
field reads back as itself — it is not a missing-value token and does not
parse as a number or boolean — and each float field is an exact decimal
(as every binary float is). -/
theorem C6_roundtrip :
    ∀ (t : ReportTable),
      strInfersSelf t.month = true →
      (∀ r ∈ t.records, strInfersSelf r.publisher = true ∧ strInfersSelf r.title = true ∧
        strInfersSelf r.sku = true) →
      (∀ r ∈ t.records, DecimalDen r.net ∧ DecimalDen r.royalty_rate ∧
        DecimalDen r.royalties) →
      load_existing_report (save_to_local_file t) = some (columns_order, t.toCells) := by
  intro t hm hs hq
  have hrows : t.toCells.map (fun row => row.map renderCellCsv) =
      t.records.map (fun r =>
        [t.month, renderInt t.year, r.publisher, r.title, r.sku,
         renderInt r.units_sold, renderFloat r.net, renderFloat r.royalty_rate,
         renderFloat r.royalties]) := by
    rw [ReportTable.toCells, List.map_map]
    rfl
  have hnonempty : ∀ r ∈ columns_order :: t.records.map (fun r =>
      [t.month, renderInt t.year, r.publisher, r.title, r.sku,
       renderInt r.units_sold, renderFloat r.net, renderFloat r.royalty_rate,
       renderFloat r.royalties]), r ≠ [] := by
    intro r hr
    rcases List.mem_cons.mp hr with rfl | hr
    · decide
    · rw [List.mem_map] at hr
      obtain ⟨rec, _, hrec⟩ := hr
      rw [← hrec]
      simp
  have hlen9 : ∀ r ∈ t.records.map (fun r =>
      [t.month, renderInt t.year, r.publisher, r.title, r.sku,
       renderInt r.units_sold, renderFloat r.net, renderFloat r.royalty_rate,
       renderFloat r.royalties]), r.length = columns_order.length := by
    intro r hr
    rw [List.mem_map] at hr
    obtain ⟨rec, _, hrec⟩ := hr
    rw [← hrec]
    rfl
  rw [save_to_local_file, hrows, load_existing_report]
  rw [parseCsv_writeCsv _ hnonempty]
  dsimp only
  rw [if_neg (by
    intro hany
    rw [List.any_eq_true] at hany
    obtain ⟨r, hr, hlt⟩ := hany
    rw [decide_eq_true_eq] at hlt
    rw [hlen9 r hr] at hlt
    omega)]
  rw [show (t.records.map (fun r =>
      [t.month, renderInt t.year, r.publisher, r.title, r.sku,
       renderInt r.units_sold, renderFloat r.net, renderFloat r.royalty_rate,
       renderFloat r.royalties])).map (padRow columns_order.length) =
      t.records.map (fun r =>
        [t.month, renderInt t.year, r.publisher, r.title, r.sku,
         renderInt r.units_sold, renderFloat r.net, renderFloat r.royalty_rate,
         renderFloat r.royalties]) from by
    rw [List.map_congr_left (fun r hr => padRow_id _ r (hlen9 r hr))]
    exact List.map_id _]
  cases hcase : t.records with
  | nil =>
    rw [ReportTable.toCells, hcase]
    simp
  | cons rec0 rs =>
    have hmemt : ∀ x ∈ rec0 :: rs, x ∈ t.records := by
      intro x hx
      rw [hcase]
      exact hx
    have hk : (List.range columns_order.length).map (fun j => columnKind
        (((rec0 :: rs).map (fun r =>
          [t.month, renderInt t.year, r.publisher, r.title, r.sku,
           renderInt r.units_sold, renderFloat r.net, renderFloat r.royalty_rate,
           renderFloat r.royalties])).map (fun row => row.getD j ""))) =
        [.kobj, .kint, .kobj, .kobj, .kobj, .kint, .kfloat, .kfloat, .kfloat] := by
      rw [show (List.range columns_order.length) = [0, 1, 2, 3, 4, 5, 6, 7, 8] from by decide]
      simp only [List.map_cons, List.map_nil, List.map_map, Function.comp,
        Function.comp_def, List.getD_cons_zero, List.getD_cons_succ]
      rw [columnKind_obj _ (by simp)
        (forall_mem_cons_map _ _ _ _ hm (fun a _ => hm))]
      rw [columnKind_int _
        (forall_mem_cons_map _ _ _ _ ⟨isIntStr_renderInt _, notNA_renderInt _⟩
          (fun a _ => ⟨isIntStr_renderInt _, notNA_renderInt _⟩))]
      rw [columnKind_obj _ (by simp)
        (forall_mem_cons_map _ _ _ _
          ((hs rec0 (hmemt rec0 (List.mem_cons_self _ _))).1)
          (fun a ha => (hs a (hmemt a (List.mem_cons_of_mem _ ha))).1))]
      rw [columnKind_obj _ (by simp)
        (forall_mem_cons_map _ _ _ _
          ((hs rec0 (hmemt rec0 (List.mem_cons_self _ _))).2.1)
          (fun a ha => (hs a (hmemt a (List.mem_cons_of_mem _ ha))).2.1))]
      rw [columnKind_obj _ (by simp)
        (forall_mem_cons_map _ _ _ _
          ((hs rec0 (hmemt rec0 (List.mem_cons_self _ _))).2.2)
          (fun a ha => (hs a (hmemt a (List.mem_cons_of_mem _ ha))).2.2))]
      rw [columnKind_int _
        (forall_mem_cons_map _ _ _ _ ⟨isIntStr_renderInt _, notNA_renderInt _⟩
          (fun a _ => ⟨isIntStr_renderInt _, notNA_renderInt _⟩))]
      rw [columnKind_float _ (by simp)
        (forall_mem_cons_map _ _ _ _
          ⟨isFloatStr_renderFloat _ (hq rec0 (hmemt rec0 (List.mem_cons_self _ _))).1,
           isIntStr_renderFloat _ (hq rec0 (hmemt rec0 (List.mem_cons_self _ _))).1,
           notNA_renderFloat _ (hq rec0 (hmemt rec0 (List.mem_cons_self _ _))).1⟩
          (fun a ha =>
            ⟨isFloatStr_renderFloat _ (hq a (hmemt a (List.mem_cons_of_mem _ ha))).1,
             isIntStr_renderFloat _ (hq a (hmemt a (List.mem_cons_of_mem _ ha))).1,
             notNA_renderFloat _ (hq a (hmemt a (List.mem_cons_of_mem _ ha))).1⟩))]
      rw [columnKind_float _ (by simp)
        (forall_mem_cons_map _ _ _ _
          ⟨isFloatStr_renderFloat _ (hq rec0 (hmemt rec0 (List.mem_cons_self _ _))).2.1,
           isIntStr_renderFloat _ (hq rec0 (hmemt rec0 (List.mem_cons_self _ _))).2.1,
           notNA_renderFloat _ (hq rec0 (hmemt rec0 (List.mem_cons_self _ _))).2.1⟩
          (fun a ha =>
            ⟨isFloatStr_renderFloat _ (hq a (hmemt a (List.mem_cons_of_mem _ ha))).2.1,
             isIntStr_renderFloat _ (hq a (hmemt a (List.mem_cons_of_mem _ ha))).2.1,
             notNA_renderFloat _ (hq a (hmemt a (List.mem_cons_of_mem _ ha))).2.1⟩))]
      rw [columnKind_float _ (by simp)
        (forall_mem_cons_map _ _ _ _
          ⟨isFloatStr_renderFloat _ (hq rec0 (hmemt rec0 (List.mem_cons_self _ _))).2.2,
           isIntStr_renderFloat _ (hq rec0 (hmemt rec0 (List.mem_cons_self _ _))).2.2,
           notNA_renderFloat _ (hq rec0 (hmemt rec0 (List.mem_cons_self _ _))).2.2⟩
          (fun a ha =>
            ⟨isFloatStr_renderFloat _ (hq a (hmemt a (List.mem_cons_of_mem _ ha))).2.2,
             isIntStr_renderFloat _ (hq a (hmemt a (List.mem_cons_of_mem _ ha))).2.2,
             notNA_renderFloat _ (hq a (hmemt a (List.mem_cons_of_mem _ ha))).2.2⟩))]
    rw [hk, ReportTable.toCells, hcase, List.map_map]
    refine congrArg (fun z => some (columns_order, z)) ?_
    apply List.map_congr_left
    intro rec hrecmem
    simp only [Function.comp, Function.comp_def]
    rw [show (List.range columns_order.length) = [0, 1, 2, 3, 4, 5, 6, 7, 8] from by decide]
    simp only [List.map_cons, List.map_nil, List.getD_cons_zero, List.getD_cons_succ]
    rw [inferCell_obj _ (strInfersSelf_spec _ hm).1]
    rw [inferCell_int]
    rw [inferCell_obj _ (strInfersSelf_spec _ ((hs rec (hmemt rec hrecmem)).1)).1]
    rw [inferCell_obj _ (strInfersSelf_spec _ ((hs rec (hmemt rec hrecmem)).2.1)).1]
    rw [inferCell_obj _ (strInfersSelf_spec _ ((hs rec (hmemt rec hrecmem)).2.2)).1]
    rw [inferCell_int]
    rw [inferCell_float _ ((hq rec (hmemt rec hrecmem)).1)]
    rw [inferCell_float _ ((hq rec (hmemt rec hrecmem)).2.1)]
    rw [inferCell_float _ ((hq rec (hmemt rec hrecmem)).2.2)]

instance (q : Rat) : Decidable (DecimalDen q) :=
  decidable_of_iff (10 ^ decExp q % q.den = 0)
    (by rw [DecimalDen]; exact (Nat.dvd_iff_mod_eq_zero).symm)

set_option maxRecDepth 10000 in
/-- C6 witness: a concrete table with a comma and quotes in its text
fields and a fractional royalty survives the round trip. -/
theorem C6_roundtrip_witness :
    load_existing_report (save_to_local_file
      ⟨"March", 2024,
       [⟨"Acme, Inc", "Book \"A\"", "SKU1", 10, mkRat 100 1, mkRat 15 1, mkRat 3 2⟩]⟩) =
      some (columns_order,
        (⟨"March", 2024,
          [⟨"Acme, Inc", "Book \"A\"", "SKU1", 10, mkRat 100 1, mkRat 15 1, mkRat 3 2⟩]⟩ :
          ReportTable).toCells) :=
  C6_roundtrip
    ⟨"March", 2024,
     [⟨"Acme, Inc", "Book \"A\"", "SKU1", 10, mkRat 100 1, mkRat 15 1, mkRat 3 2⟩]⟩
    (by decide) (by decide) (by decide)
